import Mathlib

/-!
Verification development for the elixir-chess per-room match controller
(`server/src/GameRoom.ts`, here called `part_000`, together with the shared
constants/utilities in `shared/src/index.ts`, `shared/src/cards.ts` and the
elixir ledger `utils/elixir.ts`).

The external chess engine (chess.js) is out of scope of the specification and
is modelled as a black-box interface `ChessEngine` over an abstract position
type, exactly as the room code consumes it: move legality, check detection and
position mutation over a FEN-encoded board.  The engine carries the single
snapshot/restore contract the room code relies on (`load (fen p) = p`,
"snapshot-before, restore-on-reject").

All room operations are translated from the source as pure state transformers:
`this.…` field mutation becomes record update, early `return` becomes nested
if/match, socket emissions become an explicit event list in the result.
-/

-- ============================================
-- Core types (shared/src/index.ts)
-- ============================================

/-- `export type PlayerColor = "w" | "b"`. -/
inductive PlayerColor where
  | w
  | b
deriving DecidableEq, Repr

/-- `export type PieceType = "p" | "n" | "b" | "r" | "q" | "k"`. -/
inductive PieceType where
  | p
  | n
  | b
  | r
  | q
  | k
deriving DecidableEq, Repr

/-- `interface Piece { type: PieceType; color: PlayerColor }`. -/
structure Piece where
  type : PieceType
  color : PlayerColor
deriving DecidableEq, Repr

/-- A total map from colors to values, standing for the source's
`Record<PlayerColor, α>` object literals `{ w: …, b: … }`. -/
structure ColorMap (α : Type) where
  w : α
  b : α
deriving DecidableEq, Repr

def ColorMap.get (m : ColorMap α) : PlayerColor → α
  | PlayerColor.w => m.w
  | PlayerColor.b => m.b

def ColorMap.set (m : ColorMap α) : PlayerColor → α → ColorMap α
  | PlayerColor.w, v => { m with w := v }
  | PlayerColor.b, v => { m with b := v }

/-- `playerColor === "w" ? "b" : "w"` — the opposing color. -/
def otherColor : PlayerColor → PlayerColor
  | PlayerColor.w => PlayerColor.b
  | PlayerColor.b => PlayerColor.w

/-- `interface CardHand { cards; nextCard; deck }`. -/
structure CardHand where
  cards : List PieceType
  nextCard : PieceType
  deck : List PieceType
deriving DecidableEq, Repr

/-- `export type GameStatus = …`. -/
inductive GameStatus where
  | waiting
  | playing
  | checkmate
  | draw
  | stalemate
  | insufficient
  | timeout
  | disconnected
  | resigned
deriving DecidableEq, Repr

/-- `interface Premove { from: string; to: string }`.  (`from` is a Lean
keyword, hence `fromSq`/`toSq`.) -/
structure Premove where
  fromSq : String
  toSq : String
deriving DecidableEq, Repr

/-- `export type TimeControlType = "bullet" | "blitz" | "rapid"`. -/
inductive TimeControlType where
  | bullet
  | blitz
  | rapid
deriving DecidableEq, Repr

/-- `interface GameState` — timers are seconds remaining; JS numbers are
modelled as exact rationals (for timers) and integers (for elixir). -/
structure GameState where
  fen : String
  turn : PlayerColor
  elixir : ColorMap Int
  hands : ColorMap CardHand
  timers : ColorMap Rat
  status : GameStatus
  winner : Option PlayerColor
  history : List String
deriving DecidableEq, Repr

/-- `interface ElixirGainEvent { player; amount; timestamp }`. -/
structure ElixirGainEvent where
  player : PlayerColor
  amount : Int
  timestamp : Nat
deriving DecidableEq, Repr

-- ============================================
-- Game constants (shared/src/index.ts)
-- ============================================

def INITIAL_FEN : String := "4k3/8/8/8/8/8/8/4K3 w - - 0 1"

/-- `PIECE_COSTS` record, as a function. -/
def PIECE_COSTS : PieceType → Int
  | PieceType.p => 1
  | PieceType.n => 3
  | PieceType.b => 3
  | PieceType.r => 5
  | PieceType.q => 9
  | PieceType.k => 0

/-- `CARD_WEIGHTS` record as an entry list, in the source's object-literal
order (`Object.entries` iterates string keys in insertion order). -/
def CARD_WEIGHTS : List (PieceType × Rat) :=
  [(PieceType.p, 40), (PieceType.n, 20), (PieceType.b, 20),
   (PieceType.r, 12), (PieceType.q, 8)]

/-- `PLACEMENT_ZONES: { w: [1, 2, 3], b: [6, 7, 8] }`. -/
def PLACEMENT_ZONES : PlayerColor → List Nat
  | PlayerColor.w => [1, 2, 3]
  | PlayerColor.b => [6, 7, 8]

def STARTING_ELIXIR : Int := 5
def MAX_ELIXIR : Int := 10
def HAND_SIZE : Nat := 4
def DECK_SIZE : Nat := 20
def INITIAL_TIME : Rat := 180
def TIMER_TICK_MS : Nat := 100
def RECONNECT_TIMEOUT_MS : Int := 30000

/-- `TIME_CONTROLS[t].time` (seconds): bullet 60, blitz 180, rapid 600. -/
def TIME_CONTROLS_time : TimeControlType → Rat
  | TimeControlType.bullet => 60
  | TimeControlType.blitz => 180
  | TimeControlType.rapid => 600

-- ============================================
-- Card utilities (shared/src/cards.ts)
-- ============================================

/-- The sampling loop of `drawCard`:
`for (const [type, weight] of entries) { random -= weight; if (random < 0) return type; }`
with the final deterministic fallback `return "p"`. -/
def drawLoop : List (PieceType × Rat) → Rat → PieceType
  | [], _ => PieceType.p
  | (t, wt) :: rest, random =>
      if random - wt < 0 then t else drawLoop rest (random - wt)

/-- `drawCard()` — the ambient `Math.random()` draw is passed explicitly as
`u` (a uniform sample in `[0,1)`). -/
def drawCard (u : Rat) : PieceType :=
  let entries := CARD_WEIGHTS.filter fun e => decide (0 < e.2)
  let totalWeight := (entries.map fun e => e.2).sum
  drawLoop entries (u * totalWeight)

/-- `generateDeck(size)` — `size` independent draws; the stream `u` supplies
the successive `Math.random()` samples. -/
def generateDeck (size : Nat) (u : Nat → Rat) : List PieceType :=
  (List.range size).map fun i => drawCard (u i)

/-- `initializeHand()`: generate a DECK_SIZE deck, `splice` the first
HAND_SIZE cards as the hand, `shift` the next as preview, keep the rest.
(`deck.shift()!` is total here since the deck has 20 > 5 cards; `headD`
only supplies the impossible-empty default.) -/
def initializeHand (u : Nat → Rat) : CardHand :=
  let deck := generateDeck DECK_SIZE u
  { cards := deck.take HAND_SIZE
    nextCard := (deck.drop HAND_SIZE).headD PieceType.p
    deck := (deck.drop HAND_SIZE).tail }

-- ============================================
-- Elixir ledger (utils/elixir.ts)
-- ============================================

/-- `deductElixir(currentElixir, cost) = Math.max(0, currentElixir - cost)`. -/
def deductElixir (currentElixir cost : Int) : Int :=
  max 0 (currentElixir - cost)

/-- `canAfford(elixir, cost) = elixir >= cost`. -/
def canAfford (elixir cost : Int) : Bool :=
  elixir ≥ cost

/-- `addElixir(currentElixir, amount = 1) = Math.min(currentElixir + amount, MAX_ELIXIR)`
(the default argument 1 is passed explicitly by callers of this model). -/
def addElixir (currentElixir amount : Int) : Int :=
  min (currentElixir + amount) MAX_ELIXIR

-- ============================================
-- Squares, as the source's 2-character strings
-- ============================================

/-- `parseInt(square[1])` for a validated square string: the digit value of
the second character. -/
def squareRank (s : String) : Nat :=
  (s.get ⟨1⟩).toNat - 48

/-- The input validation regex `/^[a-h][1-8]$/` of `placePiece`. -/
def isValidSquare (s : String) : Bool :=
  s.length == 2 &&
  (97 ≤ (s.get ⟨0⟩).toNat && (s.get ⟨0⟩).toNat ≤ 104) &&
  (49 ≤ (s.get ⟨1⟩).toNat && (s.get ⟨1⟩).toNat ≤ 56)

/-- `isInPlacementZone`: `PLACEMENT_ZONES[color].includes(parseInt(square[1]))`. -/
def isInPlacementZone (square : String) (color : PlayerColor) : Bool :=
  (PLACEMENT_ZONES color).contains (squareRank square)

-- ============================================
-- The external chess engine interface (chess.js, out of scope of the spec)
-- ============================================

/-- The black-box chess engine the room consumes, over an abstract position
type `Pos`.

* `fen` / `load` — FEN serialisation and (re)loading; `new Chess(f)` is
  `load f`.
* `put pos piece sq` — `chess.put(piece, sq)`; `none` models `put` returning
  `false`, which leaves the engine position unmutated.
* `move pos from to` — `chess.move({from, to, promotion: "q"})`; `none`
  models both a `null` result and a thrown exception (both leave the
  position unchanged and are handled identically by the room code).
* `load_fen` — the snapshot/restore contract the room relies on throughout
  ("snapshot-before, restore-on-reject"): reloading a position's own FEN
  restores that position. -/
structure ChessEngine (Pos : Type) where
  fen : Pos → String
  load : String → Pos
  turn : Pos → PlayerColor
  inCheck : Pos → Bool
  get : Pos → String → Option Piece
  put : Pos → Piece → String → Option Pos
  move : Pos → String → String → Option Pos
  isCheckmate : Pos → Bool
  isStalemate : Pos → Bool
  history : Pos → List String
  load_fen : ∀ p, load (fen p) = p

-- ============================================
-- Placement rule engine (part_000 lines 31-116)
-- ============================================

/-- `wouldBlockCheck(game, type, square)`.

The source tentatively `put`s on the shared engine object and restores the
saved FEN on every exit path; by the engine contract `load_fen` this is
observationally pure, and it is modelled here as a pure query (the tentative
position `g2` is a value copy that is simply discarded). -/
def wouldBlockCheck (E : ChessEngine Pos) (game : Pos) (type : PieceType)
    (square : String) : Bool :=
  let turn := E.turn game
  if !E.inCheck game then false
  else
    -- Pawns can never be on rank 1 or 8, so they can't block check there
    let rank := squareRank square
    if type == PieceType.p && (rank == 1 || rank == 8) then false
    else
      match E.put game ⟨type, turn⟩ square with
      | none => false
      | some g2 => !E.inCheck g2

/-- `getValidPlacementSquares(game, pieceType, color)`: iterate files a..h,
then the color's zone ranks; skip pawn back ranks and occupied squares; while
in check only check-blocking squares are eligible. -/
def getValidPlacementSquares (E : ChessEngine Pos) (game : Pos)
    (pieceType : PieceType) (color : PlayerColor) : List String :=
  let files := ["a", "b", "c", "d", "e", "f", "g", "h"]
  let isCheck := E.inCheck game
  files.flatMap fun file =>
    (PLACEMENT_ZONES color).filterMap fun rank =>
      -- Pawns cannot be placed on the 1st or 8th rank
      if pieceType == PieceType.p && (rank == 1 || rank == 8) then none
      else
        let square := file ++ toString rank
        match E.get game square with
        | some _ => none
        | none =>
            if isCheck then
              if wouldBlockCheck E game pieceType square then some square
              else none
            else some square

/-- `canBlockCheckByPlacing(game, hand, elixir)`: some affordable card in hand
has at least one eligible square while in check. -/
def canBlockCheckByPlacing (E : ChessEngine Pos) (game : Pos)
    (hand : List PieceType) (elixir : Int) : Bool :=
  if !E.inCheck game then false
  else
    let turn := E.turn game
    let affordableCards := hand.filter fun t => decide (PIECE_COSTS t ≤ elixir)
    affordableCards.any fun pieceType =>
      !(getValidPlacementSquares E game pieceType turn).isEmpty

-- ============================================
-- Room state (class GameRoom, part_000 lines 127-179)
-- ============================================

/-- The mutable fields of `class GameRoom`.  The scheduler handles
(`timerInterval`, `premoveTimeout`) and the emitter are not state: timer
callbacks are modelled by explicit invocation (`timerTick`,
`tryExecutePremove`) and emissions become explicit event lists. -/
structure Room (Pos : Type) where
  roomId : String
  timeControl : TimeControlType
  players : ColorMap (Option String)
  disconnectedPlayers : ColorMap (Option Nat)
  chess : Pos
  gameState : GameState
  lastTimerTick : Nat
  premoves : ColorMap (List Premove)
  pendingDrawOffer : Option PlayerColor
deriving DecidableEq

/-- The per-seat view (`PlayerView` of shared/src/index.ts as populated by
`getPlayerView`). -/
structure ViewGameState where
  fen : String
  turn : PlayerColor
  elixir : ColorMap Int
  timers : ColorMap Rat
  status : GameStatus
  winner : Option PlayerColor
  history : List String
  myHand : CardHand
  opponentCardCount : Nat
  premoves : List Premove
deriving DecidableEq, Repr

structure PlayerView where
  roomId : String
  playerColor : PlayerColor
  gameState : ViewGameState
deriving DecidableEq, Repr

/-- Socket emissions of the room, in emission order: `emitToPlayer` /
`emitToRoom` calls become constructors carrying the payload. -/
inductive SEvent where
  | gameStart (socketId : String) (view : PlayerView)
  | gameStateUpdate (socketId : String) (view : PlayerView)
      (gainEvent : Option ElixirGainEvent)
  | timerTickEv (timers : ColorMap Rat)
  | gameOver (status : GameStatus) (winner : Option PlayerColor)
  | premovesCleared (socketId : String) (reason : String)
  | drawOffered (socketId : String) (fromColor : PlayerColor)
  | drawDeclined (socketId : String)
deriving DecidableEq

/-- Result of a room action: the `{ success, reason? }` object returned to
the caller, the post-call room state, and the emitted events. -/
structure ActionOut (Pos : Type) where
  success : Bool
  reason : Option String
  room : Room Pos
  events : List SEvent
deriving DecidableEq

/-- `getPlayerColor(socketId)` (part_000 lines 226-230). -/
def getPlayerColor (room : Room Pos) (socketId : String) : Option PlayerColor :=
  if room.players.w = some socketId then some PlayerColor.w
  else if room.players.b = some socketId then some PlayerColor.b
  else none

/-- `getPlayerView(color)` (part_000 lines 629-649). -/
def getPlayerView (room : Room Pos) (color : PlayerColor) : PlayerView :=
  let opponentColor := otherColor color
  let opponentHand := room.gameState.hands.get opponentColor
  { roomId := room.roomId
    playerColor := color
    gameState :=
      { fen := room.gameState.fen
        turn := room.gameState.turn
        elixir := room.gameState.elixir
        timers := room.gameState.timers
        status := room.gameState.status
        winner := room.gameState.winner
        history := room.gameState.history
        myHand := room.gameState.hands.get color
        opponentCardCount := opponentHand.cards.length
        premoves := room.premoves.get color } }

/-- `broadcastGameState(gainEvent?)` (part_000 lines 757-784): the two
GAME_STATE_UPDATE emissions.  The trailing debounced `setTimeout` that re-arms
`tryExecutePremove` is scheduling, modelled by explicitly invoking
`tryExecutePremove` in the premove-execution traces. -/
def broadcastGameState (room : Room Pos) (gainEvent : Option ElixirGainEvent) :
    List SEvent :=
  (match room.players.w with
   | some s =>
       [SEvent.gameStateUpdate s (getPlayerView room PlayerColor.w)
         (match gainEvent with
          | some g => if g.player = PlayerColor.w then some g else none
          | none => none)]
   | none => []) ++
  (match room.players.b with
   | some s =>
       [SEvent.gameStateUpdate s (getPlayerView room PlayerColor.b)
         (match gainEvent with
          | some g => if g.player = PlayerColor.b then some g else none
          | none => none)]
   | none => [])

/-- `endGame(status, winner?)` (part_000 lines 309-314).  `stopTimers` only
cancels scheduler handles. -/
def endGame (room : Room Pos) (status : GameStatus)
    (winner : Option PlayerColor) : Room Pos × List SEvent :=
  ({ room with gameState :=
      { room.gameState with status := status, winner := winner } },
   [SEvent.gameOver status winner])

/-- `checkGameEnd()` (part_000 lines 478-528).

The stalemate scan tentatively `put`s on the shared engine object and restores
the saved FEN after every try (`load(originalFen, {skipValidation: true})`);
by the engine contract `load_fen` this is observationally pure and is modelled
as a pure scan over value copies.  The loop-with-break is `List.any`. -/
def checkGameEnd (E : ChessEngine Pos) (room : Room Pos) :
    Room Pos × List SEvent :=
  let turn := room.gameState.turn
  let hand := room.gameState.hands.get turn
  let elixir := room.gameState.elixir.get turn
  if E.isCheckmate room.chess then
    if !canBlockCheckByPlacing E room.chess hand.cards elixir then
      endGame room GameStatus.checkmate (some (otherColor turn))
    else (room, [])
  else if E.isStalemate room.chess then
    -- Check if player can place any piece (also verify placement wouldn't cause self-check)
    let canPlace := hand.cards.any fun pieceType =>
      decide (PIECE_COSTS pieceType ≤ elixir) &&
      (getValidPlacementSquares E room.chess pieceType turn).any fun sq =>
        match E.put room.chess ⟨pieceType, turn⟩ sq with
        | some g2 => !E.inCheck g2
        | none => false
    if !canPlace then endGame room GameStatus.stalemate none
    else (room, [])
  else (room, [])

/-- The common tail of `placePiece` / `movePiece` / `tryExecutePremove`
(the source repeats this block verbatim in all three): update
fen/turn/history from the engine, apply the bonus-elixir (mutual-freeze)
rule, run `checkGameEnd`, broadcast. -/
def commitMove (E : ChessEngine Pos) (room : Room Pos)
    (playerColor : PlayerColor) (wasInCheck : Bool) (chess2 : Pos)
    (now : Nat) : Room Pos × List SEvent :=
  let gs1 := { room.gameState with
    fen := E.fen chess2
    turn := E.turn chess2
    history := E.history chess2 }
  -- Check for bonus elixir
  let nowInCheck := E.inCheck chess2
  let gp :=
    if wasInCheck = false ∧ nowInCheck = false ∧
        gs1.elixir.get playerColor < MAX_ELIXIR then
      ({ gs1 with elixir :=
          gs1.elixir.set playerColor (gs1.elixir.get playerColor + 1) },
       some (ElixirGainEvent.mk playerColor 1 now))
    else (gs1, none)
  let room1 := { room with chess := chess2, gameState := gp.1 }
  let cg := checkGameEnd E room1
  (cg.1, cg.2 ++ broadcastGameState cg.1 gp.2)

/-- `validPieceTypes` of `placePiece` input validation. -/
def validPieceTypes : List PieceType :=
  [PieceType.p, PieceType.n, PieceType.b, PieceType.r, PieceType.q]

/-- The turn switch of `placePiece` via FEN manipulation: replace field 1 of
the space-separated FEN with the opposing color. -/
def flipTurnFen (fen : String) (playerColor : PlayerColor) : String :=
  let parts := fen.splitOn " "
  String.intercalate " "
    (parts.set 1 (if playerColor = PlayerColor.w then "b" else "w"))

/-- The accepted-placement tail of `placePiece` (part_000 lines 381-423),
factored out: deduct elixir, cycle the card (`splice(cardIndex, 1)` at the
found index is `List.erase` — remove the first occurrence — followed by
`push(hand.nextCard)`; an empty deck is refilled by `generateDeck()` whose
`Math.random()` stream is `u`), switch the turn via FEN manipulation, then
the shared commit block. -/
def placeApply (E : ChessEngine Pos) (room : Room Pos)
    (playerColor : PlayerColor) (type : PieceType) (square : String)
    (wasInCheck : Bool) (afterPut : Pos) (now : Nat) (u : Nat → Rat) :
    ActionOut Pos :=
  let hand := room.gameState.hands.get playerColor
  let cost := PIECE_COSTS type
  -- Deduct elixir
  let elixir1 := room.gameState.elixir.set playerColor
    (room.gameState.elixir.get playerColor - cost)
  -- Cycle card
  let cards1 := hand.cards.erase type ++ [hand.nextCard]
  let hand1 :=
    match hand.deck with
    | d :: rest => { cards := cards1, nextCard := d, deck := rest }
    | [] =>
        let newDeck := generateDeck DECK_SIZE u
        { cards := cards1
          nextCard := newDeck.headD PieceType.p
          deck := newDeck.tail }
  -- Switch turn via FEN manipulation
  let chess2 := E.load (flipTurnFen (E.fen afterPut) playerColor)
  let room1 := { room with
    gameState := { room.gameState with
      elixir := elixir1
      hands := room.gameState.hands.set playerColor hand1 } }
  let cm := commitMove E room1 playerColor wasInCheck chess2 now
  ⟨true, none, cm.1, cm.2⟩

/-- `placePiece(socketId, type, square)` (part_000 lines 320-424).

`now` supplies `Date.now()` (gain-event timestamp); `u` supplies the
`Math.random()` stream of a possible `generateDeck()` refill.
`hand.cards.indexOf(type) === -1` is the membership test.  `chess.put`
returning `false` leaves the engine unmutated (`none` branch); the
self-check rejection reloads the saved FEN exactly as the source does;
an accepted placement continues in `placeApply`. -/
def placePiece (E : ChessEngine Pos) (room : Room Pos) (now : Nat)
    (u : Nat → Rat) (socketId : String) (type : PieceType)
    (square : String) : ActionOut Pos :=
  match getPlayerColor room socketId with
  | none => ⟨false, some "Not in this game", room, []⟩
  | some playerColor =>
    if room.gameState.status != GameStatus.playing then
      ⟨false, some "Game not in progress", room, []⟩
    else if room.gameState.turn != playerColor then
      ⟨false, some "Not your turn", room, []⟩
    else if !validPieceTypes.contains type then
      ⟨false, some "Invalid piece type", room, []⟩
    else if !isValidSquare square then
      ⟨false, some "Invalid square", room, []⟩
    else
      let hand := room.gameState.hands.get playerColor
      if !hand.cards.contains type then
        ⟨false, some "Card not in hand", room, []⟩
      else
        let cost := PIECE_COSTS type
        if room.gameState.elixir.get playerColor < cost then
          ⟨false, some "Not enough elixir", room, []⟩
        else if !isInPlacementZone square playerColor then
          ⟨false, some "Invalid placement zone", room, []⟩
        else
          -- Pawns cannot be placed on rank 1 or 8
          let rank := squareRank square
          if type == PieceType.p && (rank == 1 || rank == 8) then
            ⟨false, some "Pawns cannot be placed on back rank", room, []⟩
          else
            match E.get room.chess square with
            | some _ => ⟨false, some "Square occupied", room, []⟩
            | none =>
              -- Check if we're in check - placement must block it
              if E.inCheck room.chess &&
                  !wouldBlockCheck E room.chess type square then
                ⟨false, some "Must block check", room, []⟩
              else
                -- Place the piece
                let wasInCheck := E.inCheck room.chess
                let originalFen := E.fen room.chess
                match E.put room.chess ⟨type, playerColor⟩ square with
                | none => ⟨false, some "Failed to place piece", room, []⟩
                | some afterPut =>
                  -- Verify no self-check after placement
                  if E.inCheck afterPut && (E.turn afterPut == playerColor) then
                    -- Restore original position
                    ⟨false, some "Cannot place into check",
                      { room with chess := E.load originalFen }, []⟩
                  else
                    placeApply E room playerColor type square wasInCheck
                      afterPut now u

/-- `movePiece(socketId, from, to)` (part_000 lines 426-476); legality is
fully delegated to the engine (`promotion: "q"` is baked into
`ChessEngine.move`), both a `null` move result and a thrown exception are the
`none` branch. -/
def movePiece (E : ChessEngine Pos) (room : Room Pos) (now : Nat)
    (socketId : String) (fromSq toSq : String) : ActionOut Pos :=
  match getPlayerColor room socketId with
  | none => ⟨false, some "Not in this game", room, []⟩
  | some playerColor =>
    if room.gameState.status != GameStatus.playing then
      ⟨false, some "Game not in progress", room, []⟩
    else if room.gameState.turn != playerColor then
      ⟨false, some "Not your turn", room, []⟩
    else
      let wasInCheck := E.inCheck room.chess
      match E.move room.chess fromSq toSq with
      | none => ⟨false, some "Invalid move", room, []⟩
      | some chess2 =>
        let cm := commitMove E room playerColor wasInCheck chess2 now
        ⟨true, none, cm.1, cm.2⟩

/-- `clearPremovesForPlayer(color, reason)` (part_000 lines 688-696). -/
def clearPremovesForPlayer (room : Room Pos) (color : PlayerColor)
    (reason : String) : Room Pos × List SEvent :=
  ({ room with premoves := room.premoves.set color [] },
   match room.players.get color with
   | some s => [SEvent.premovesCleared s reason]
   | none => [])

/-- `tryExecutePremove()` (part_000 lines 698-755): validate the head of the
on-move color's queue against the current board; execute it as an ordinary
move (identical commit block as `movePiece`) popping it, or clear the whole
queue with reason "Invalid premove". -/
def tryExecutePremove (E : ChessEngine Pos) (room : Room Pos) (now : Nat) :
    ActionOut Pos :=
  if room.gameState.status != GameStatus.playing then ⟨false, none, room, []⟩
  else
    let currentTurn := room.gameState.turn
    match room.premoves.get currentTurn with
    | [] => ⟨false, none, room, []⟩
    | premove :: rest =>
      let wasInCheck := E.inCheck room.chess
      -- Validate the premove is still legal
      match E.move room.chess premove.fromSq premove.toSq with
      | none =>
        -- Invalid premove - clear all premoves for this player
        let cl := clearPremovesForPlayer room currentTurn "Invalid premove"
        ⟨false, none, cl.1, cl.2⟩
      | some chess2 =>
        -- Remove the executed premove from queue
        let room1 :=
          { room with premoves := room.premoves.set currentTurn rest }
        let cm := commitMove E room1 currentTurn wasInCheck chess2 now
        ⟨true, none, cm.1, cm.2⟩

/-- `setPremoves(socketId, premoves)` (part_000 lines 655-671): replace the
queue, capped at 10 entries. -/
def setPremoves (room : Room Pos) (socketId : String)
    (premoves : List Premove) : Room Pos × List SEvent :=
  match getPlayerColor room socketId with
  | none => (room, [])
  | some playerColor =>
    if room.gameState.status != GameStatus.playing then (room, [])
    else
      -- Cap premove queue size to prevent abuse
      let capped := premoves.take 10
      let room1 :=
        { room with premoves := room.premoves.set playerColor capped }
      (room1,
       match room1.players.get playerColor with
       | some s =>
           [SEvent.gameStateUpdate s (getPlayerView room1 playerColor) none]
       | none => [])

/-- `clearPremoves(socketId)` (part_000 lines 673-686). -/
def clearPremoves (room : Room Pos) (socketId : String) :
    Room Pos × List SEvent :=
  match getPlayerColor room socketId with
  | none => (room, [])
  | some playerColor =>
    let room1 := { room with premoves := room.premoves.set playerColor [] }
    (room1,
     match room1.players.get playerColor with
     | some s =>
         [SEvent.gameStateUpdate s (getPlayerView room1 playerColor) none]
     | none => [])

/-- `resign(socketId)` (part_000 lines 567-576). -/
def resign (room : Room Pos) (socketId : String) : ActionOut Pos :=
  match getPlayerColor room socketId with
  | none => ⟨false, none, room, []⟩
  | some playerColor =>
    if room.gameState.status != GameStatus.playing then ⟨false, none, room, []⟩
    else
      -- The opponent wins
      let winner := otherColor playerColor
      let eg := endGame room GameStatus.resigned (some winner)
      ⟨true, none, eg.1, eg.2⟩

/-- `offerDraw(socketId)` (part_000 lines 578-597). -/
def offerDraw (room : Room Pos) (socketId : String) : ActionOut Pos :=
  match getPlayerColor room socketId with
  | none => ⟨false, none, room, []⟩
  | some playerColor =>
    if room.gameState.status != GameStatus.playing then ⟨false, none, room, []⟩
    else if room.pendingDrawOffer.isSome then ⟨false, none, room, []⟩
    else
      let room1 := { room with pendingDrawOffer := some playerColor }
      let opponentColor := otherColor playerColor
      ⟨true, none, room1,
        match room1.players.get opponentColor with
        | some s => [SEvent.drawOffered s playerColor]
        | none => []⟩

/-- `respondToDraw(socketId, accept)` (part_000 lines 599-623). -/
def respondToDraw (room : Room Pos) (socketId : String) (accept : Bool) :
    ActionOut Pos :=
  match getPlayerColor room socketId with
  | none => ⟨false, none, room, []⟩
  | some playerColor =>
    if room.gameState.status != GameStatus.playing then ⟨false, none, room, []⟩
    else
      match room.pendingDrawOffer with
      | none => ⟨false, none, room, []⟩
      | some offerer =>
        if offerer == playerColor then ⟨false, none, room, []⟩
        else if accept then
          let eg := endGame room GameStatus.draw none
          ⟨true, none, { eg.1 with pendingDrawOffer := none }, eg.2⟩
        else
          ⟨true, none, { room with pendingDrawOffer := none },
            match room.players.get offerer with
            | some s => [SEvent.drawDeclined s]
            | none => []⟩

/-- `createInitialGameState()` (part_000 lines 168-179); `chess` is the
freshly loaded engine position whose FEN seeds the state, `uW`/`uB` supply
the `Math.random()` streams of the two `initializeHand()` calls. -/
def createInitialGameState (E : ChessEngine Pos) (chess : Pos)
    (timeControl : TimeControlType) (uW uB : Nat → Rat) : GameState :=
  let initialTime := TIME_CONTROLS_time timeControl
  { fen := E.fen chess
    turn := PlayerColor.w
    elixir := ⟨STARTING_ELIXIR, STARTING_ELIXIR⟩
    hands := ⟨initializeHand uW, initializeHand uB⟩
    timers := ⟨initialTime, initialTime⟩
    status := GameStatus.waiting
    winner := none
    history := [] }

/-- `restartGame(socketId)` (part_000 lines 530-561): any seated player may
restart; fresh engine (`new Chess(INITIAL_FEN)` is `E.load INITIAL_FEN`),
fresh state forced to `playing`, premoves and draw offer cleared,
`startTimers()` resets `lastTimerTick` to `now`, GAME_START views emitted. -/
def restartGame (E : ChessEngine Pos) (room : Room Pos) (now : Nat)
    (uW uB : Nat → Rat) (socketId : String) : ActionOut Pos :=
  match getPlayerColor room socketId with
  | none => ⟨false, none, room, []⟩
  | some _ =>
    let chess := E.load INITIAL_FEN
    let gs0 := createInitialGameState E chess room.timeControl uW uB
    let room1 := { room with
      chess := chess
      gameState := { gs0 with status := GameStatus.playing }
      premoves := ⟨[], []⟩
      pendingDrawOffer := none
      lastTimerTick := now }
    ⟨true, none, room1,
      (match room1.players.w with
       | some s => [SEvent.gameStart s (getPlayerView room1 PlayerColor.w)]
       | none => []) ++
      (match room1.players.b with
       | some s => [SEvent.gameStart s (getPlayerView room1 PlayerColor.b)]
       | none => [])⟩

/-- `removePlayer(socketId)` (part_000 lines 196-207): vacate the seat and
record `Date.now()` (passed as `now`). -/
def removePlayer (room : Room Pos) (now : Nat) (socketId : String) :
    Option PlayerColor × Room Pos :=
  if room.players.w = some socketId then
    (some PlayerColor.w,
     { room with players := room.players.set PlayerColor.w none
                 disconnectedPlayers :=
                   room.disconnectedPlayers.set PlayerColor.w (some now) })
  else if room.players.b = some socketId then
    (some PlayerColor.b,
     { room with players := room.players.set PlayerColor.b none
                 disconnectedPlayers :=
                   room.disconnectedPlayers.set PlayerColor.b (some now) })
  else (none, room)

/-- `reconnectPlayer(socketId, color)` (part_000 lines 209-216); the guard
`if (this.disconnectedPlayers[color])` is a JS truthiness test, so a
(non-occurring) zero timestamp would be treated as absent. -/
def reconnectPlayer (room : Room Pos) (socketId : String)
    (color : PlayerColor) : Bool × Room Pos :=
  match room.disconnectedPlayers.get color with
  | some t =>
      if t ≠ 0 then
        (true,
         { room with players := room.players.set color (some socketId)
                     disconnectedPlayers :=
                       room.disconnectedPlayers.set color none })
      else (false, room)
  | none => (false, room)

/-- One iteration of the disconnect sweep in the timer callback
(part_000 lines 286-294), for one color. -/
def disconnectSweepStep (room : Room Pos) (now : Nat) (color : PlayerColor) :
    Room Pos × List SEvent :=
  match room.disconnectedPlayers.get color with
  | some disconnectTime =>
      if disconnectTime ≠ 0 ∧
          (now : Int) - disconnectTime > RECONNECT_TIMEOUT_MS then
        endGame room GameStatus.disconnected (some (otherColor color))
      else (room, [])
  | none => (room, [])

/-- The `setInterval` callback of `startTimers()` (part_000 lines 264-295):
decrement the on-move timer by elapsed wall-clock seconds (floored at 0),
broadcast, declare timeout, then sweep both colors for expired disconnect
timestamps (the sweep runs even if timeout already ended the game, exactly
as in the source; both `Date.now()` reads are the same instant `now`). -/
def timerTick (room : Room Pos) (now : Nat) : Room Pos × List SEvent :=
  if room.gameState.status != GameStatus.playing then (room, [])
  else
    let elapsed : Rat := ((now : Rat) - (room.lastTimerTick : Rat)) / 1000
    let currentTurn := room.gameState.turn
    let newTimer := max 0 (room.gameState.timers.get currentTurn - elapsed)
    let room1 := { room with
      lastTimerTick := now
      gameState := { room.gameState with
        timers := room.gameState.timers.set currentTurn newTimer } }
    let ev1 := [SEvent.timerTickEv room1.gameState.timers]
    -- Check for timeout
    let r2 :=
      if newTimer ≤ 0 then
        endGame room1 GameStatus.timeout (some (otherColor currentTurn))
      else (room1, [])
    -- Check for disconnection timeout
    let r3 := disconnectSweepStep r2.1 now PlayerColor.w
    let r4 := disconnectSweepStep r3.1 now PlayerColor.b
    (r4.1, ev1 ++ r2.2 ++ r3.2 ++ r4.2)

-- ============================================
-- Premove execution traces
-- ============================================

/-- The state reached after `i` rounds of opportunistic premove execution:
each round is one `tryExecutePremove` invocation (the debounced timer firing)
followed by an arbitrary interlude `gs[i]` standing for whatever happens
before the turn comes back to the premoving color (out-of-range interludes
default to `id`). -/
def premoveStage (E : ChessEngine Pos) (now : Nat)
    (gs : List (Room Pos → Room Pos)) (room0 : Room Pos) : Nat → Room Pos
  | 0 => room0
  | i + 1 =>
      (gs.getD i id) (tryExecutePremove E (premoveStage E now gs room0 i) now).room

-- ============================================
-- Concrete witness fixtures: toy engines over string positions
-- ============================================

/-- A trivial concrete engine over string positions: `fen`/`load` are the
identity (so the snapshot contract holds definitionally); no position is ever
in check; every put/move succeeds by tagging the position string. -/
def calmEngine : ChessEngine String where
  fen := id
  load := id
  turn := fun _ => PlayerColor.w
  inCheck := fun _ => false
  get := fun _ _ => none
  put := fun p _ sq => some (p ++ "+" ++ sq)
  move := fun p f t => some (p ++ ">" ++ f ++ t)
  isCheckmate := fun _ => false
  isStalemate := fun _ => false
  history := fun _ => []
  load_fen := fun _ => rfl

/-- Engine for the premove-trace witness: a move from square "e2" is legal,
any other move is rejected. -/
def scriptEngine : ChessEngine String where
  fen := id
  load := id
  turn := fun _ => PlayerColor.w
  inCheck := fun _ => false
  get := fun _ _ => none
  put := fun p _ sq => some (p ++ "+" ++ sq)
  move := fun p f t => if f = "e2" then some (p ++ ">" ++ f ++ t) else none
  isCheckmate := fun _ => false
  isStalemate := fun _ => false
  history := fun _ => []
  load_fen := fun _ => rfl

/-- Engine for the checkmate-downgrade witness: position "M" is checkmate
(and in check); any tentative placement yields a check-free position. -/
def mateEngine : ChessEngine String where
  fen := id
  load := id
  turn := fun _ => PlayerColor.w
  inCheck := fun p => decide (p = "M")
  get := fun _ _ => none
  put := fun _ _ sq => some ("B" ++ sq)
  move := fun _ _ _ => none
  isCheckmate := fun p => decide (p = "M")
  isStalemate := fun _ => false
  history := fun _ => []
  load_fen := fun _ => rfl

/-- A live two-seat room used by the witnesses. -/
def roomP : Room String :=
  { roomId := "R1"
    timeControl := TimeControlType.blitz
    players := ⟨some "sw", some "sb"⟩
    disconnectedPlayers := ⟨none, none⟩
    chess := "C0"
    gameState :=
      { fen := "C0"
        turn := PlayerColor.w
        elixir := ⟨5, 5⟩
        hands :=
          ⟨⟨[PieceType.p, PieceType.n, PieceType.n, PieceType.r],
            PieceType.q, [PieceType.b]⟩,
           ⟨[PieceType.p, PieceType.n, PieceType.b, PieceType.r],
            PieceType.q, [PieceType.p]⟩⟩
        timers := ⟨180, 180⟩
        status := GameStatus.playing
        winner := none
        history := [] }
    lastTimerTick := 0
    premoves := ⟨[], []⟩
    pendingDrawOffer := none }

/-- A constant `Math.random()` stream for witnesses. -/
def u0 : Nat → Rat := fun _ => 0

/-- `roomP` already in a terminal state. -/
def roomT : Room String :=
  { roomP with gameState := { roomP.gameState with
      status := GameStatus.checkmate, winner := some PlayerColor.b } }

/-- `roomP` in the `mateEngine`'s checkmate position. -/
def roomM : Room String :=
  { roomP with chess := "M" }

/-- `roomP` with a two-entry white premove queue whose second entry is
illegal for `scriptEngine`. -/
def roomQ : Room String :=
  { roomP with premoves :=
      ⟨[Premove.mk "e2" "e4", Premove.mk "a7" "a5"], []⟩ }

/-- `roomP` with white's seat vacant and a recorded disconnect timestamp. -/
def roomD : Room String :=
  { roomP with players := ⟨none, some "sb"⟩
               disconnectedPlayers := ⟨some 100, none⟩ }

/-- An alternative black hand of the same card count as `roomP`'s, for the
view-privacy witness. -/
def handAlt : CardHand :=
  ⟨[PieceType.q, PieceType.q, PieceType.b, PieceType.p], PieceType.p, []⟩

-- ============================================
-- Basic lemmas
-- ============================================

@[simp] theorem ColorMap.get_w (m : ColorMap α) : m.get PlayerColor.w = m.w := rfl

@[simp] theorem ColorMap.get_b (m : ColorMap α) : m.get PlayerColor.b = m.b := rfl

@[simp] theorem ColorMap.get_set_same (m : ColorMap α) (c : PlayerColor) (v : α) :
    (m.set c v).get c = v := by
  cases c <;> rfl

theorem ColorMap.get_set_other (m : ColorMap α) (c d : PlayerColor) (v : α)
    (h : c ≠ d) : (m.set c v).get d = m.get d := by
  cases c <;> cases d <;> first | rfl | exact absurd rfl h

@[simp] theorem otherColor_w : otherColor PlayerColor.w = PlayerColor.b := rfl

@[simp] theorem otherColor_b : otherColor PlayerColor.b = PlayerColor.w := rfl

theorem otherColor_ne (c : PlayerColor) : otherColor c ≠ c := by
  cases c <;> decide

/-- `checkGameEnd` only ever touches `status` and `winner`. -/
theorem checkGameEnd_shape (E : ChessEngine Pos) (r : Room Pos) :
    ∃ s w, (checkGameEnd E r).1 =
      { r with gameState := { r.gameState with status := s, winner := w } } := by
  simp only [checkGameEnd, endGame]
  repeat' split
  all_goals exact ⟨_, _, rfl⟩

theorem checkGameEnd_chess (E : ChessEngine Pos) (r : Room Pos) :
    (checkGameEnd E r).1.chess = r.chess := by
  obtain ⟨s, w, h⟩ := checkGameEnd_shape E r
  rw [h]

theorem checkGameEnd_elixir (E : ChessEngine Pos) (r : Room Pos) :
    (checkGameEnd E r).1.gameState.elixir = r.gameState.elixir := by
  obtain ⟨s, w, h⟩ := checkGameEnd_shape E r
  rw [h]

theorem checkGameEnd_hands (E : ChessEngine Pos) (r : Room Pos) :
    (checkGameEnd E r).1.gameState.hands = r.gameState.hands := by
  obtain ⟨s, w, h⟩ := checkGameEnd_shape E r
  rw [h]

theorem checkGameEnd_premoves (E : ChessEngine Pos) (r : Room Pos) :
    (checkGameEnd E r).1.premoves = r.premoves := by
  obtain ⟨s, w, h⟩ := checkGameEnd_shape E r
  rw [h]

theorem checkGameEnd_players (E : ChessEngine Pos) (r : Room Pos) :
    (checkGameEnd E r).1.players = r.players := by
  obtain ⟨s, w, h⟩ := checkGameEnd_shape E r
  rw [h]

theorem checkGameEnd_timers (E : ChessEngine Pos) (r : Room Pos) :
    (checkGameEnd E r).1.gameState.timers = r.gameState.timers := by
  obtain ⟨s, w, h⟩ := checkGameEnd_shape E r
  rw [h]

theorem checkGameEnd_turn (E : ChessEngine Pos) (r : Room Pos) :
    (checkGameEnd E r).1.gameState.turn = r.gameState.turn := by
  obtain ⟨s, w, h⟩ := checkGameEnd_shape E r
  rw [h]

@[simp] theorem ColorMap.set_set_same (m : ColorMap α) (c : PlayerColor)
    (v v2 : α) : (m.set c v).set c v2 = m.set c v2 := by
  cases c <;> rfl

theorem commitMove_chess (E : ChessEngine Pos) (room : Room Pos)
    (pc : PlayerColor) (wch : Bool) (c2 : Pos) (now : Nat) :
    (commitMove E room pc wch c2 now).1.chess = c2 := by
  simp only [commitMove]
  split <;> rw [checkGameEnd_chess]

theorem commitMove_elixir (E : ChessEngine Pos) (room : Room Pos)
    (pc : PlayerColor) (wch : Bool) (c2 : Pos) (now : Nat) :
    (commitMove E room pc wch c2 now).1.gameState.elixir =
      if wch = false ∧ E.inCheck c2 = false ∧
          room.gameState.elixir.get pc < MAX_ELIXIR then
        room.gameState.elixir.set pc (room.gameState.elixir.get pc + 1)
      else room.gameState.elixir := by
  simp only [commitMove]
  split <;> rw [checkGameEnd_elixir]

theorem commitMove_hands (E : ChessEngine Pos) (room : Room Pos)
    (pc : PlayerColor) (wch : Bool) (c2 : Pos) (now : Nat) :
    (commitMove E room pc wch c2 now).1.gameState.hands =
      room.gameState.hands := by
  simp only [commitMove]
  split <;> rw [checkGameEnd_hands]

theorem commitMove_premoves (E : ChessEngine Pos) (room : Room Pos)
    (pc : PlayerColor) (wch : Bool) (c2 : Pos) (now : Nat) :
    (commitMove E room pc wch c2 now).1.premoves = room.premoves := by
  simp only [commitMove]
  split <;> rw [checkGameEnd_premoves]

theorem commitMove_players (E : ChessEngine Pos) (room : Room Pos)
    (pc : PlayerColor) (wch : Bool) (c2 : Pos) (now : Nat) :
    (commitMove E room pc wch c2 now).1.players = room.players := by
  simp only [commitMove]
  split <;> rw [checkGameEnd_players]

theorem commitMove_timers (E : ChessEngine Pos) (room : Room Pos)
    (pc : PlayerColor) (wch : Bool) (c2 : Pos) (now : Nat) :
    (commitMove E room pc wch c2 now).1.gameState.timers =
      room.gameState.timers := by
  simp only [commitMove]
  split <;> rw [checkGameEnd_timers]

/-- Every `placePiece` call either succeeds, or leaves the room untouched and
reports a reason without emitting anything (the self-check rejection restores
the snapshot by the engine contract). -/
theorem placePiece_out (E : ChessEngine Pos) (room : Room Pos) (now : Nat)
    (u : Nat → Rat) (socketId : String) (type : PieceType) (square : String)
    (o : ActionOut Pos) :
    placePiece E room now u socketId type square = o →
    (o.success = true ∨
     (o.room = room ∧ o.reason.isSome = true ∧ o.events = [])) := by
  simp only [placePiece]
  split
  case h_1 => intro h; subst h; exact Or.inr ⟨rfl, rfl, rfl⟩
  case h_2 playerColor heq =>
    by_cases h1 : (room.gameState.status != GameStatus.playing) = true
    · rw [if_pos h1]; intro h; subst h; exact Or.inr ⟨rfl, rfl, rfl⟩
    rw [if_neg h1]
    by_cases h2 : (room.gameState.turn != playerColor) = true
    · rw [if_pos h2]; intro h; subst h; exact Or.inr ⟨rfl, rfl, rfl⟩
    rw [if_neg h2]
    by_cases h3 : (!validPieceTypes.contains type) = true
    · rw [if_pos h3]; intro h; subst h; exact Or.inr ⟨rfl, rfl, rfl⟩
    rw [if_neg h3]
    by_cases h4 : (!isValidSquare square) = true
    · rw [if_pos h4]; intro h; subst h; exact Or.inr ⟨rfl, rfl, rfl⟩
    rw [if_neg h4]
    by_cases h5 : (!(room.gameState.hands.get playerColor).cards.contains type) = true
    · rw [if_pos h5]; intro h; subst h; exact Or.inr ⟨rfl, rfl, rfl⟩
    rw [if_neg h5]
    by_cases h6 : room.gameState.elixir.get playerColor < PIECE_COSTS type
    · rw [if_pos h6]; intro h; subst h; exact Or.inr ⟨rfl, rfl, rfl⟩
    rw [if_neg h6]
    by_cases h7 : (!isInPlacementZone square playerColor) = true
    · rw [if_pos h7]; intro h; subst h; exact Or.inr ⟨rfl, rfl, rfl⟩
    rw [if_neg h7]
    by_cases h8 : (type == PieceType.p && (squareRank square == 1 || squareRank square == 8)) = true
    · rw [if_pos h8]; intro h; subst h; exact Or.inr ⟨rfl, rfl, rfl⟩
    rw [if_neg h8]
    cases hget : E.get room.chess square with
    | some pce => intro h; subst h; exact Or.inr ⟨rfl, rfl, rfl⟩
    | none =>
      by_cases h9 : (E.inCheck room.chess && !wouldBlockCheck E room.chess type square) = true
      · rw [if_pos h9]; intro h; subst h; exact Or.inr ⟨rfl, rfl, rfl⟩
      rw [if_neg h9]
      cases hput : E.put room.chess ⟨type, playerColor⟩ square with
      | none => intro h; subst h; exact Or.inr ⟨rfl, rfl, rfl⟩
      | some afterPut =>
        dsimp only
        by_cases h10 : (E.inCheck afterPut && (E.turn afterPut == playerColor)) = true
        · rw [if_pos h10]; intro h; subst h
          exact Or.inr ⟨by rw [E.load_fen], rfl, rfl⟩
        rw [if_neg h10]
        intro h; subst h
        exact Or.inl rfl

/-- Every `movePiece` call either succeeds, or leaves the room untouched and
reports a reason without emitting anything. -/
theorem movePiece_out (E : ChessEngine Pos) (room : Room Pos) (now : Nat)
    (socketId : String) (fromSq toSq : String)
    (o : ActionOut Pos) :
    movePiece E room now socketId fromSq toSq = o →
    (o.success = true ∨
     (o.room = room ∧ o.reason.isSome = true ∧ o.events = [])) := by
  simp only [movePiece]
  split
  case h_1 => intro h; subst h; exact Or.inr ⟨rfl, rfl, rfl⟩
  case h_2 playerColor heq =>
    by_cases h1 : (room.gameState.status != GameStatus.playing) = true
    · rw [if_pos h1]; intro h; subst h; exact Or.inr ⟨rfl, rfl, rfl⟩
    rw [if_neg h1]
    by_cases h2 : (room.gameState.turn != playerColor) = true
    · rw [if_pos h2]; intro h; subst h; exact Or.inr ⟨rfl, rfl, rfl⟩
    rw [if_neg h2]
    cases hmv : E.move room.chess fromSq toSq with
    | none => intro h; subst h; exact Or.inr ⟨rfl, rfl, rfl⟩
    | some chess2 => intro h; subst h; exact Or.inl rfl

theorem placeApply_chess (E : ChessEngine Pos) (room : Room Pos)
    (pc : PlayerColor) (type : PieceType) (square : String) (wch : Bool)
    (afterPut : Pos) (now : Nat) (u : Nat → Rat) :
    (placeApply E room pc type square wch afterPut now u).room.chess =
      E.load (flipTurnFen (E.fen afterPut) pc) := by
  simp only [placeApply]
  rw [commitMove_chess]

theorem placeApply_elixir (E : ChessEngine Pos) (room : Room Pos)
    (pc : PlayerColor) (type : PieceType) (square : String) (wch : Bool)
    (afterPut : Pos) (now : Nat) (u : Nat → Rat) :
    (placeApply E room pc type square wch afterPut now u).room.gameState.elixir =
      if wch = false ∧
          E.inCheck (E.load (flipTurnFen (E.fen afterPut) pc)) = false ∧
          room.gameState.elixir.get pc - PIECE_COSTS type < MAX_ELIXIR then
        room.gameState.elixir.set pc
          (room.gameState.elixir.get pc - PIECE_COSTS type + 1)
      else
        room.gameState.elixir.set pc
          (room.gameState.elixir.get pc - PIECE_COSTS type) := by
  simp only [placeApply]
  rw [commitMove_elixir]
  simp only [ColorMap.get_set_same, ColorMap.set_set_same]

theorem placeApply_success (E : ChessEngine Pos) (room : Room Pos)
    (pc : PlayerColor) (type : PieceType) (square : String) (wch : Bool)
    (afterPut : Pos) (now : Nat) (u : Nat → Rat) :
    (placeApply E room pc type square wch afterPut now u).success = true := rfl

/-- The elixir ledger effect of a successful `placePiece`: cost was
affordable, and the mover's balance is the deduction, plus the mutual-freeze
bonus when no check is involved and the cap is not reached. -/
theorem placePiece_success_elixir (E : ChessEngine Pos) (room : Room Pos)
    (now : Nat) (u : Nat → Rat) (socketId : String) (type : PieceType)
    (square : String) (pc : PlayerColor) (o : ActionOut Pos)
    (hpc : getPlayerColor room socketId = some pc) :
    placePiece E room now u socketId type square = o → o.success = true →
    (PIECE_COSTS type ≤ room.gameState.elixir.get pc ∧
     o.room.gameState.elixir =
       (if E.inCheck room.chess = false ∧ E.inCheck o.room.chess = false ∧
           room.gameState.elixir.get pc - PIECE_COSTS type < MAX_ELIXIR then
         room.gameState.elixir.set pc
           (room.gameState.elixir.get pc - PIECE_COSTS type + 1)
       else
         room.gameState.elixir.set pc
           (room.gameState.elixir.get pc - PIECE_COSTS type))) := by
  simp only [placePiece, hpc]
  by_cases h1 : (room.gameState.status != GameStatus.playing) = true
  · rw [if_pos h1]; intro h hs; subst h; exact Bool.noConfusion hs
  rw [if_neg h1]
  by_cases h2 : (room.gameState.turn != pc) = true
  · rw [if_pos h2]; intro h hs; subst h; exact Bool.noConfusion hs
  rw [if_neg h2]
  by_cases h3 : (!validPieceTypes.contains type) = true
  · rw [if_pos h3]; intro h hs; subst h; exact Bool.noConfusion hs
  rw [if_neg h3]
  by_cases h4 : (!isValidSquare square) = true
  · rw [if_pos h4]; intro h hs; subst h; exact Bool.noConfusion hs
  rw [if_neg h4]
  by_cases h5 : (!(room.gameState.hands.get pc).cards.contains type) = true
  · rw [if_pos h5]; intro h hs; subst h; exact Bool.noConfusion hs
  rw [if_neg h5]
  by_cases h6 : room.gameState.elixir.get pc < PIECE_COSTS type
  · rw [if_pos h6]; intro h hs; subst h; exact Bool.noConfusion hs
  rw [if_neg h6]
  by_cases h7 : (!isInPlacementZone square pc) = true
  · rw [if_pos h7]; intro h hs; subst h; exact Bool.noConfusion hs
  rw [if_neg h7]
  by_cases h8 : (type == PieceType.p &&
      (squareRank square == 1 || squareRank square == 8)) = true
  · rw [if_pos h8]; intro h hs; subst h; exact Bool.noConfusion hs
  rw [if_neg h8]
  cases hget : E.get room.chess square with
  | some pce => intro h hs; subst h; exact Bool.noConfusion hs
  | none =>
    by_cases h9 : (E.inCheck room.chess &&
        !wouldBlockCheck E room.chess type square) = true
    · rw [if_pos h9]; intro h hs; subst h; exact Bool.noConfusion hs
    rw [if_neg h9]
    cases hput : E.put room.chess ⟨type, pc⟩ square with
    | none => intro h hs; subst h; exact Bool.noConfusion hs
    | some afterPut =>
      dsimp only
      by_cases h10 : (E.inCheck afterPut && (E.turn afterPut == pc)) = true
      · rw [if_pos h10]; intro h hs; subst h; exact Bool.noConfusion hs
      rw [if_neg h10]
      intro h hs; subst h
      refine ⟨Int.not_lt.mp h6, ?_⟩
      rw [placeApply_elixir, placeApply_chess]

/-- The elixir ledger effect of a successful `movePiece`. -/
theorem movePiece_success_elixir (E : ChessEngine Pos) (room : Room Pos)
    (now : Nat) (socketId : String) (fromSq toSq : String) (pc : PlayerColor)
    (o : ActionOut Pos) (hpc : getPlayerColor room socketId = some pc) :
    movePiece E room now socketId fromSq toSq = o → o.success = true →
    o.room.gameState.elixir =
      (if E.inCheck room.chess = false ∧ E.inCheck o.room.chess = false ∧
          room.gameState.elixir.get pc < MAX_ELIXIR then
        room.gameState.elixir.set pc (room.gameState.elixir.get pc + 1)
      else room.gameState.elixir) := by
  simp only [movePiece, hpc]
  by_cases h1 : (room.gameState.status != GameStatus.playing) = true
  · rw [if_pos h1]; intro h hs; subst h; exact Bool.noConfusion hs
  rw [if_neg h1]
  by_cases h2 : (room.gameState.turn != pc) = true
  · rw [if_pos h2]; intro h hs; subst h; exact Bool.noConfusion hs
  rw [if_neg h2]
  cases hmv : E.move room.chess fromSq toSq with
  | none => intro h hs; subst h; exact Bool.noConfusion hs
  | some chess2 =>
    dsimp only
    intro h hs; subst h
    rw [commitMove_elixir]
    rw [commitMove_chess]

/-- A successful `placePiece` can never have placed a pawn on rank 1 or 8:
the guard at part_000 lines 350-353 fires first. -/
theorem placePiece_success_not_pawn_backrank (E : ChessEngine Pos)
    (room : Room Pos) (now : Nat) (u : Nat → Rat) (socketId : String)
    (square : String) (o : ActionOut Pos) :
    placePiece E room now u socketId PieceType.p square = o →
    o.success = true →
    ¬ (squareRank square = 1 ∨ squareRank square = 8) := by
  simp only [placePiece]
  split
  case h_1 => intro h hs; subst h; exact Bool.noConfusion hs
  case h_2 playerColor heq =>
    by_cases h1 : (room.gameState.status != GameStatus.playing) = true
    · rw [if_pos h1]; intro h hs; subst h; exact Bool.noConfusion hs
    rw [if_neg h1]
    by_cases h2 : (room.gameState.turn != playerColor) = true
    · rw [if_pos h2]; intro h hs; subst h; exact Bool.noConfusion hs
    rw [if_neg h2]
    by_cases h3 : (!validPieceTypes.contains PieceType.p) = true
    · rw [if_pos h3]; intro h hs; subst h; exact Bool.noConfusion hs
    rw [if_neg h3]
    by_cases h4 : (!isValidSquare square) = true
    · rw [if_pos h4]; intro h hs; subst h; exact Bool.noConfusion hs
    rw [if_neg h4]
    by_cases h5 : (!(room.gameState.hands.get playerColor).cards.contains PieceType.p) = true
    · rw [if_pos h5]; intro h hs; subst h; exact Bool.noConfusion hs
    rw [if_neg h5]
    by_cases h6 : room.gameState.elixir.get playerColor < PIECE_COSTS PieceType.p
    · rw [if_pos h6]; intro h hs; subst h; exact Bool.noConfusion hs
    rw [if_neg h6]
    by_cases h7 : (!isInPlacementZone square playerColor) = true
    · rw [if_pos h7]; intro h hs; subst h; exact Bool.noConfusion hs
    rw [if_neg h7]
    by_cases h8 : (PieceType.p == PieceType.p &&
        (squareRank square == 1 || squareRank square == 8)) = true
    · rw [if_pos h8]; intro h hs; subst h; exact Bool.noConfusion hs
    rw [if_neg h8]
    cases hget : E.get room.chess square with
    | some pce => intro h hs; subst h; exact Bool.noConfusion hs
    | none =>
      by_cases h9 : (E.inCheck room.chess &&
          !wouldBlockCheck E room.chess PieceType.p square) = true
      · rw [if_pos h9]; intro h hs; subst h; exact Bool.noConfusion hs
      rw [if_neg h9]
      cases hput : E.put room.chess ⟨PieceType.p, playerColor⟩ square with
      | none => intro h hs; subst h; exact Bool.noConfusion hs
      | some afterPut =>
        dsimp only
        by_cases h10 : (E.inCheck afterPut && (E.turn afterPut == playerColor)) = true
        · rw [if_pos h10]; intro h hs; subst h; exact Bool.noConfusion hs
        rw [if_neg h10]
        intro h hs; subst h
        intro hcontra
        rcases hcontra with hc | hc <;> simp [hc] at h8

/-- C1: for every color, board state, caller and target square on rank 1 or
rank 8, `placePiece` with a pawn card is rejected (`success = false`) and the
room — in particular the board — is left unchanged, so no placement ever puts
a pawn on rank 1 or 8. -/
theorem spec_c1 (E : ChessEngine Pos) (room : Room Pos) (now : Nat)
    (u : Nat → Rat) (socketId : String) (square : String)
    (hr : squareRank square = 1 ∨ squareRank square = 8) :
    (placePiece E room now u socketId PieceType.p square).success = false ∧
    (placePiece E room now u socketId PieceType.p square).room = room := by
  constructor
  · cases hs2 : (placePiece E room now u socketId PieceType.p square).success
    · rfl
    · exact absurd hr
        (placePiece_success_not_pawn_backrank E room now u socketId square _
          rfl hs2)
  · rcases placePiece_out E room now u socketId PieceType.p square _ rfl with
      hs | ⟨hroom, _, _⟩
    · exact absurd hr
        (placePiece_success_not_pawn_backrank E room now u socketId square _
          rfl hs)
    · exact hroom

theorem spec_c1_witness :
    (placePiece calmEngine roomP 0 u0 "sw" PieceType.p "a1").success = false ∧
    (placePiece calmEngine roomP 0 u0 "sw" PieceType.p "a1").room = roomP :=
  spec_c1 calmEngine roomP 0 u0 "sw" "a1" (Or.inl (by decide))

/-- C5: whenever `placePiece` or `movePiece` returns `success = false` — for
any rejection reason, including the self-check rejection that tentatively
mutates the board and reverts it — the entire room state (board, turn,
status, elixir, hands, timers, history, premoves, draw offer) is identical to
its value before the call, a structured reason string is returned, and
nothing is emitted. -/
theorem spec_c5 (E : ChessEngine Pos) (room : Room Pos) (now : Nat)
    (u : Nat → Rat) (socketId : String) (type : PieceType) (square : String)
    (fromSq toSq : String) :
    ((placePiece E room now u socketId type square).success = false →
      (placePiece E room now u socketId type square).room = room ∧
      (placePiece E room now u socketId type square).reason.isSome = true ∧
      (placePiece E room now u socketId type square).events = []) ∧
    ((movePiece E room now socketId fromSq toSq).success = false →
      (movePiece E room now socketId fromSq toSq).room = room ∧
      (movePiece E room now socketId fromSq toSq).reason.isSome = true ∧
      (movePiece E room now socketId fromSq toSq).events = []) := by
  constructor
  · intro hf
    rcases placePiece_out E room now u socketId type square _ rfl with
      hs | hout
    · rw [hf] at hs; exact Bool.noConfusion hs
    · exact hout
  · intro hf
    rcases movePiece_out E room now socketId fromSq toSq _ rfl with hs | hout
    · rw [hf] at hs; exact Bool.noConfusion hs
    · exact hout

theorem spec_c5_witness :
    (placePiece calmEngine roomP 0 u0 "zz" PieceType.p "e2").success = false ∧
    (placePiece calmEngine roomP 0 u0 "zz" PieceType.p "e2").room = roomP ∧
    (placePiece calmEngine roomP 0 u0 "zz" PieceType.p "e2").reason.isSome = true ∧
    (movePiece calmEngine roomP 0 "zz" "e2" "e4").success = false ∧
    (movePiece calmEngine roomP 0 "zz" "e2" "e4").room = roomP ∧
    (movePiece calmEngine roomP 0 "zz" "e2" "e4").reason.isSome = true := by
  have h := spec_c5 calmEngine roomP 0 u0 "zz" PieceType.p "e2" "e2" "e4"
  have hp := h.1 (by decide)
  have hm := h.2 (by decide)
  exact ⟨by decide, hp.1, hp.2.1, by decide, hm.1, hm.2.1⟩

/-- C2: for every successful `movePiece` or `placePiece` by the seated player
`pc`: if the mover was in check before the action, or the side now on move
(the opponent) is in check after it, the mover's elixir does not increase
that turn — it only decreases by the placement cost, if any; otherwise it
increases by exactly 1, except that no increase happens when the
post-deduction balance is already MAX_ELIXIR. -/
theorem spec_c2 (E : ChessEngine Pos) (room : Room Pos) (now : Nat)
    (u : Nat → Rat) (socketId : String) (type : PieceType) (square : String)
    (fromSq toSq : String) (pc : PlayerColor)
    (hpc : getPlayerColor room socketId = some pc) :
    ((placePiece E room now u socketId type square).success = true →
      (placePiece E room now u socketId type square).room.gameState.elixir.get pc =
        (if E.inCheck room.chess = true ∨
            E.inCheck (placePiece E room now u socketId type square).room.chess = true then
          room.gameState.elixir.get pc - PIECE_COSTS type
        else if room.gameState.elixir.get pc - PIECE_COSTS type < MAX_ELIXIR then
          room.gameState.elixir.get pc - PIECE_COSTS type + 1
        else room.gameState.elixir.get pc - PIECE_COSTS type)) ∧
    ((movePiece E room now socketId fromSq toSq).success = true →
      (movePiece E room now socketId fromSq toSq).room.gameState.elixir.get pc =
        (if E.inCheck room.chess = true ∨
            E.inCheck (movePiece E room now socketId fromSq toSq).room.chess = true then
          room.gameState.elixir.get pc
        else if room.gameState.elixir.get pc < MAX_ELIXIR then
          room.gameState.elixir.get pc + 1
        else room.gameState.elixir.get pc)) := by
  constructor
  · intro hs
    obtain ⟨hcost, hmap⟩ :=
      placePiece_success_elixir E room now u socketId type square pc _ hpc rfl hs
    rw [hmap]
    cases hw : E.inCheck room.chess <;>
      cases hn : E.inCheck (placePiece E room now u socketId type square).room.chess <;>
        simp only [hw, hn] <;>
          by_cases hb : room.gameState.elixir.get pc - PIECE_COSTS type < MAX_ELIXIR <;>
            simp [hb, ColorMap.get_set_same]
  · intro hs
    have hmap :=
      movePiece_success_elixir E room now socketId fromSq toSq pc _ hpc rfl hs
    rw [hmap]
    cases hw : E.inCheck room.chess <;>
      cases hn : E.inCheck (movePiece E room now socketId fromSq toSq).room.chess <;>
        simp only [hw, hn] <;>
          by_cases hb : room.gameState.elixir.get pc < MAX_ELIXIR <;>
            simp [hb, ColorMap.get_set_same]

theorem spec_c2_witness :
    (placePiece calmEngine roomP 0 u0 "sw" PieceType.p "e2").room.gameState.elixir.get
      PlayerColor.w = 5 ∧
    (movePiece calmEngine roomP 0 "sw" "e2" "e4").room.gameState.elixir.get
      PlayerColor.w = 6 := by
  have h := spec_c2 calmEngine roomP 0 u0 "sw" PieceType.p "e2" "e2" "e4"
    PlayerColor.w (by decide)
  have hp := h.1 (by decide)
  have hm := h.2 (by decide)
  rw [hp, hm]
  constructor <;> decide

/-- C9: the per-seat view is independent of the contents of the opponent's
hand (cards, preview, deck) as long as the card count matches — and it
contains the caller's own hand, the opponent's card count, and the caller's
own premove queue only. -/
theorem spec_c9 (room : Room Pos) (color : PlayerColor) (h2 : CardHand)
    (hlen : h2.cards.length =
      (room.gameState.hands.get (otherColor color)).cards.length) :
    getPlayerView
      { room with gameState := { room.gameState with
          hands := room.gameState.hands.set (otherColor color) h2 } } color =
      getPlayerView room color ∧
    (getPlayerView room color).gameState.myHand =
      room.gameState.hands.get color ∧
    (getPlayerView room color).gameState.opponentCardCount =
      (room.gameState.hands.get (otherColor color)).cards.length ∧
    (getPlayerView room color).gameState.premoves =
      room.premoves.get color := by
  refine ⟨?_, rfl, rfl, rfl⟩
  simp only [getPlayerView, ColorMap.get_set_same,
    ColorMap.get_set_other _ _ _ _ (otherColor_ne color), hlen]

theorem spec_c9_witness :
    getPlayerView
      { roomP with gameState := { roomP.gameState with
          hands := roomP.gameState.hands.set (otherColor PlayerColor.w)
            handAlt } } PlayerColor.w =
      getPlayerView roomP PlayerColor.w ∧
    (getPlayerView roomP PlayerColor.w).gameState.myHand =
      roomP.gameState.hands.get PlayerColor.w ∧
    (getPlayerView roomP PlayerColor.w).gameState.opponentCardCount =
      (roomP.gameState.hands.get (otherColor PlayerColor.w)).cards.length ∧
    (getPlayerView roomP PlayerColor.w).gameState.premoves =
      roomP.premoves.get PlayerColor.w :=
  spec_c9 roomP PlayerColor.w handAlt (by decide)

/-- `canBlockCheckByPlacing` is exactly: some card in hand is affordable and
has at least one eligible (check-blocking) placement square. -/
theorem canBlock_iff (E : ChessEngine Pos) (g : Pos) (cards : List PieceType)
    (elixir : Int) (hchk : E.inCheck g = true) :
    canBlockCheckByPlacing E g cards elixir = true ↔
      ∃ t ∈ cards, PIECE_COSTS t ≤ elixir ∧
        getValidPlacementSquares E g t (E.turn g) ≠ [] := by
  simp [canBlockCheckByPlacing, hchk, List.any_eq_true, List.mem_filter,
    and_assoc]

/-- C3: after any action whose resulting position the engine reports as
checkmate for the player now on move, `checkGameEnd` keeps the match in
`playing` iff that player holds an affordable card with at least one eligible
check-blocking square; otherwise status becomes `checkmate` with the other
color as winner.  (A checkmate position has the side to move in check, and
the engine's side to move agrees with the recorded turn — both facts about
the black-box engine are hypotheses.) -/
theorem spec_c3 (E : ChessEngine Pos) (room : Room Pos)
    (hcm : E.isCheckmate room.chess = true)
    (hchk : E.inCheck room.chess = true)
    (hturn : E.turn room.chess = room.gameState.turn)
    (hstat : room.gameState.status = GameStatus.playing) :
    ((∃ t ∈ (room.gameState.hands.get room.gameState.turn).cards,
        PIECE_COSTS t ≤ room.gameState.elixir.get room.gameState.turn ∧
        getValidPlacementSquares E room.chess t room.gameState.turn ≠ []) →
      (checkGameEnd E room).1.gameState.status = GameStatus.playing) ∧
    ((¬ ∃ t ∈ (room.gameState.hands.get room.gameState.turn).cards,
        PIECE_COSTS t ≤ room.gameState.elixir.get room.gameState.turn ∧
        getValidPlacementSquares E room.chess t room.gameState.turn ≠ []) →
      (checkGameEnd E room).1.gameState.status = GameStatus.checkmate ∧
      (checkGameEnd E room).1.gameState.winner =
        some (otherColor room.gameState.turn)) := by
  have hcb := canBlock_iff E room.chess
    (room.gameState.hands.get room.gameState.turn).cards
    (room.gameState.elixir.get room.gameState.turn) hchk
  rw [hturn] at hcb
  constructor
  · intro hex
    have hcbt : canBlockCheckByPlacing E room.chess
        (room.gameState.hands.get room.gameState.turn).cards
        (room.gameState.elixir.get room.gameState.turn) = true := hcb.mpr hex
    simp only [checkGameEnd, hcm, hcbt]
    simpa using hstat
  · intro hnex
    have hcbf : canBlockCheckByPlacing E room.chess
        (room.gameState.hands.get room.gameState.turn).cards
        (room.gameState.elixir.get room.gameState.turn) = false := by
      cases hcbv : canBlockCheckByPlacing E room.chess
        (room.gameState.hands.get room.gameState.turn).cards
        (room.gameState.elixir.get room.gameState.turn)
      · rfl
      · exact absurd (hcb.mp hcbv) hnex
    simp only [checkGameEnd, hcm, hcbf]
    simp [endGame]

theorem spec_c3_witness :
    (checkGameEnd mateEngine roomM).1.gameState.status = GameStatus.playing :=
  (spec_c3 mateEngine roomM (by decide) (by decide) (by decide) rfl).1
    ⟨PieceType.p, by decide, by decide, by decide⟩

/-- C10: `restartGame` succeeds for any seated player regardless of the
current status — even mid-game or with the opponent's seat vacant — and
unconditionally re-enters `playing` with the initial two-kings board,
starting elixir, fresh hands, full timers, empty premove queues and no
pending draw offer; a non-seated caller gets `false` and no state change. -/
theorem spec_c10 (E : ChessEngine Pos) (room : Room Pos) (now : Nat)
    (uW uB : Nat → Rat) (socketId : String) :
    (getPlayerColor room socketId = none →
      restartGame E room now uW uB socketId =
        ⟨false, none, room, []⟩) ∧
    (∀ pc, getPlayerColor room socketId = some pc →
      (restartGame E room now uW uB socketId).success = true ∧
      (restartGame E room now uW uB socketId).room =
        { roomId := room.roomId
          timeControl := room.timeControl
          players := room.players
          disconnectedPlayers := room.disconnectedPlayers
          chess := E.load INITIAL_FEN
          gameState :=
            { fen := E.fen (E.load INITIAL_FEN)
              turn := PlayerColor.w
              elixir := ⟨STARTING_ELIXIR, STARTING_ELIXIR⟩
              hands := ⟨initializeHand uW, initializeHand uB⟩
              timers := ⟨TIME_CONTROLS_time room.timeControl,
                         TIME_CONTROLS_time room.timeControl⟩
              status := GameStatus.playing
              winner := none
              history := [] }
          lastTimerTick := now
          premoves := ⟨[], []⟩
          pendingDrawOffer := none }) := by
  constructor
  · intro h
    simp only [restartGame, h]
  · intro pc h
    simp only [restartGame, createInitialGameState, h]
    exact ⟨trivial, trivial⟩

theorem spec_c10_witness :
    (restartGame calmEngine roomT 7 u0 u0 "sw").success = true ∧
    (restartGame calmEngine roomT 7 u0 u0 "sw").room =
      { roomId := roomT.roomId
        timeControl := roomT.timeControl
        players := roomT.players
        disconnectedPlayers := roomT.disconnectedPlayers
        chess := calmEngine.load INITIAL_FEN
        gameState :=
          { fen := calmEngine.fen (calmEngine.load INITIAL_FEN)
            turn := PlayerColor.w
            elixir := ⟨STARTING_ELIXIR, STARTING_ELIXIR⟩
            hands := ⟨initializeHand u0, initializeHand u0⟩
            timers := ⟨TIME_CONTROLS_time roomT.timeControl,
                       TIME_CONTROLS_time roomT.timeControl⟩
            status := GameStatus.playing
            winner := none
            history := [] }
        lastTimerTick := 7
        premoves := ⟨[], []⟩
        pendingDrawOffer := none } :=
  (spec_c10 calmEngine roomT 7 u0 u0 "sw").2 PlayerColor.w (by decide)

theorem placePiece_not_playing (E : ChessEngine Pos) (room : Room Pos)
    (now : Nat) (u : Nat → Rat) (socketId : String) (type : PieceType)
    (square : String) (o : ActionOut Pos)
    (hne : room.gameState.status ≠ GameStatus.playing) :
    placePiece E room now u socketId type square = o →
    o.success = false ∧ o.room = room ∧ o.events = [] := by
  simp only [placePiece]
  split
  case h_1 => intro h; subst h; exact ⟨rfl, rfl, rfl⟩
  case h_2 playerColor heq =>
    rw [if_pos (bne_iff_ne.mpr hne)]
    intro h; subst h; exact ⟨rfl, rfl, rfl⟩

theorem movePiece_not_playing (E : ChessEngine Pos) (room : Room Pos)
    (now : Nat) (socketId : String) (fromSq toSq : String) (o : ActionOut Pos)
    (hne : room.gameState.status ≠ GameStatus.playing) :
    movePiece E room now socketId fromSq toSq = o →
    o.success = false ∧ o.room = room ∧ o.events = [] := by
  simp only [movePiece]
  split
  case h_1 => intro h; subst h; exact ⟨rfl, rfl, rfl⟩
  case h_2 playerColor heq =>
    rw [if_pos (bne_iff_ne.mpr hne)]
    intro h; subst h; exact ⟨rfl, rfl, rfl⟩

theorem resign_not_playing (room : Room Pos) (socketId : String)
    (hne : room.gameState.status ≠ GameStatus.playing) :
    resign room socketId = ⟨false, none, room, []⟩ := by
  simp only [resign]
  split
  case h_1 => rfl
  case h_2 playerColor heq => rw [if_pos (bne_iff_ne.mpr hne)]

theorem offerDraw_not_playing (room : Room Pos) (socketId : String)
    (hne : room.gameState.status ≠ GameStatus.playing) :
    offerDraw room socketId = ⟨false, none, room, []⟩ := by
  simp only [offerDraw]
  split
  case h_1 => rfl
  case h_2 playerColor heq => rw [if_pos (bne_iff_ne.mpr hne)]

theorem respondToDraw_not_playing (room : Room Pos) (socketId : String)
    (accept : Bool) (hne : room.gameState.status ≠ GameStatus.playing) :
    respondToDraw room socketId accept = ⟨false, none, room, []⟩ := by
  simp only [respondToDraw]
  split
  case h_1 => rfl
  case h_2 playerColor heq => rw [if_pos (bne_iff_ne.mpr hne)]

theorem setPremoves_not_playing (room : Room Pos) (socketId : String)
    (pms : List Premove) (hne : room.gameState.status ≠ GameStatus.playing) :
    setPremoves room socketId pms = (room, []) := by
  simp only [setPremoves]
  split
  case h_1 => rfl
  case h_2 playerColor heq => rw [if_pos (bne_iff_ne.mpr hne)]

theorem timerTick_not_playing (room : Room Pos) (now : Nat)
    (hne : room.gameState.status ≠ GameStatus.playing) :
    timerTick room now = (room, []) := by
  simp only [timerTick]
  rw [if_pos (bne_iff_ne.mpr hne)]

theorem tryExecutePremove_not_playing (E : ChessEngine Pos) (room : Room Pos)
    (now : Nat) (hne : room.gameState.status ≠ GameStatus.playing) :
    tryExecutePremove E room now = ⟨false, none, room, []⟩ := by
  simp only [tryExecutePremove]
  rw [if_pos (bne_iff_ne.mpr hne)]

/-- C7: once status is terminal (checkmate, stalemate, draw, timeout,
disconnected, resigned), every operation except restart — `movePiece`,
`placePiece`, `resign`, `offerDraw`, `respondToDraw`, `setPremoves`, the
clock tick, and premove execution — leaves the match state unchanged; only
`restart` leaves the terminal state, re-entering `playing` with freshly
initialized board, elixir, hands, timers, premove queues and draw offer. -/
theorem spec_c7 (E : ChessEngine Pos) (room : Room Pos) (now : Nat)
    (u uW uB : Nat → Rat) (socketId : String) (type : PieceType)
    (square fromSq toSq : String) (pms : List Premove) (accept : Bool)
    (hterm : room.gameState.status ∈
      [GameStatus.checkmate, GameStatus.stalemate, GameStatus.draw,
       GameStatus.timeout, GameStatus.disconnected, GameStatus.resigned]) :
    ((placePiece E room now u socketId type square).success = false ∧
     (placePiece E room now u socketId type square).room = room) ∧
    ((movePiece E room now socketId fromSq toSq).success = false ∧
     (movePiece E room now socketId fromSq toSq).room = room) ∧
    resign room socketId = ⟨false, none, room, []⟩ ∧
    offerDraw room socketId = ⟨false, none, room, []⟩ ∧
    respondToDraw room socketId accept = ⟨false, none, room, []⟩ ∧
    setPremoves room socketId pms = (room, []) ∧
    timerTick room now = (room, []) ∧
    tryExecutePremove E room now = ⟨false, none, room, []⟩ ∧
    (∀ pc, getPlayerColor room socketId = some pc →
      (restartGame E room now uW uB socketId).success = true ∧
      (restartGame E room now uW uB socketId).room =
        { roomId := room.roomId
          timeControl := room.timeControl
          players := room.players
          disconnectedPlayers := room.disconnectedPlayers
          chess := E.load INITIAL_FEN
          gameState :=
            { fen := E.fen (E.load INITIAL_FEN)
              turn := PlayerColor.w
              elixir := ⟨STARTING_ELIXIR, STARTING_ELIXIR⟩
              hands := ⟨initializeHand uW, initializeHand uB⟩
              timers := ⟨TIME_CONTROLS_time room.timeControl,
                         TIME_CONTROLS_time room.timeControl⟩
              status := GameStatus.playing
              winner := none
              history := [] }
          lastTimerTick := now
          premoves := ⟨[], []⟩
          pendingDrawOffer := none }) := by
  have hne : room.gameState.status ≠ GameStatus.playing := by
    intro he; rw [he] at hterm; exact absurd hterm (by decide)
  obtain ⟨hp1, hp2, _⟩ :=
    placePiece_not_playing E room now u socketId type square _ hne rfl
  obtain ⟨hm1, hm2, _⟩ :=
    movePiece_not_playing E room now socketId fromSq toSq _ hne rfl
  refine ⟨⟨hp1, hp2⟩, ⟨hm1, hm2⟩,
    resign_not_playing room socketId hne,
    offerDraw_not_playing room socketId hne,
    respondToDraw_not_playing room socketId accept hne,
    setPremoves_not_playing room socketId pms hne,
    timerTick_not_playing room now hne,
    tryExecutePremove_not_playing E room now hne,
    ?_⟩
  intro pc h
  simp only [restartGame, createInitialGameState, h]
  exact ⟨trivial, trivial⟩

theorem spec_c7_witness :
    (placePiece calmEngine roomT 0 u0 "sw" PieceType.p "e2").room = roomT ∧
    (movePiece calmEngine roomT 0 "sw" "e2" "e4").room = roomT ∧
    resign roomT "sw" = ⟨false, none, roomT, []⟩ ∧
    timerTick roomT 50 = (roomT, []) ∧
    tryExecutePremove calmEngine roomT 50 = ⟨false, none, roomT, []⟩ ∧
    (restartGame calmEngine roomT 3 u0 u0 "sw").room.gameState.status =
      GameStatus.playing := by
  have h := spec_c7 calmEngine roomT 0 u0 u0 u0 "sw" PieceType.p "e2" "e2"
    "e4" [] true (by decide)
  have h50a := spec_c7 calmEngine roomT 50 u0 u0 u0 "sw" PieceType.p "e2"
    "e2" "e4" [] true (by decide)
  have h3 := spec_c7 calmEngine roomT 3 u0 u0 u0 "sw" PieceType.p "e2" "e2"
    "e4" [] true (by decide)
  refine ⟨h.1.2, h.2.1.2, h.2.2.1, h50a.2.2.2.2.2.2.1,
    h50a.2.2.2.2.2.2.2.1, ?_⟩
  have hr := (h3.2.2.2.2.2.2.2.2 PlayerColor.w (by decide)).2
  rw [hr]

theorem sweep_skip (room : Room Pos) (now : Nat) (color : PlayerColor)
    (h : ∀ t2, room.disconnectedPlayers.get color = some t2 →
      ¬ (t2 ≠ 0 ∧ (now : Int) - t2 > RECONNECT_TIMEOUT_MS)) :
    disconnectSweepStep room now color = (room, []) := by
  simp only [disconnectSweepStep]
  cases hx : room.disconnectedPlayers.get color with
  | none => rfl
  | some t =>
      dsimp only
      rw [if_neg (h t hx)]

theorem sweep_fire (room : Room Pos) (now : Nat) (color : PlayerColor)
    (ts : Nat) (hd : room.disconnectedPlayers.get color = some ts)
    (hts : ts ≠ 0) (hgt : (now : Int) - ts > RECONNECT_TIMEOUT_MS) :
    disconnectSweepStep room now color =
      endGame room GameStatus.disconnected (some (otherColor color)) := by
  simp only [disconnectSweepStep, hd]
  rw [if_pos ⟨hts, hgt⟩]

/-- The two-color disconnect sweep of one tick, when exactly color `c` has
an expired timestamp, ends the game as `disconnected` with the other color
as winner. -/
theorem sweepPair (r : Room Pos) (now : Nat) (c : PlayerColor) (ts : Nat)
    (hd : r.disconnectedPlayers.get c = some ts) (hts : ts ≠ 0)
    (hgt : (now : Int) - ts > RECONNECT_TIMEOUT_MS)
    (hother : ∀ t2, r.disconnectedPlayers.get (otherColor c) = some t2 →
      ¬ (t2 ≠ 0 ∧ (now : Int) - t2 > RECONNECT_TIMEOUT_MS)) :
    (disconnectSweepStep (disconnectSweepStep r now PlayerColor.w).1 now
        PlayerColor.b).1.gameState.status = GameStatus.disconnected ∧
    (disconnectSweepStep (disconnectSweepStep r now PlayerColor.w).1 now
        PlayerColor.b).1.gameState.winner = some (otherColor c) := by
  cases c with
  | w =>
    rw [sweep_fire r now PlayerColor.w ts hd hts hgt]
    rw [sweep_skip
      ((endGame r GameStatus.disconnected (some (otherColor PlayerColor.w))).1)
      now PlayerColor.b hother]
    exact ⟨rfl, rfl⟩
  | b =>
    rw [sweep_skip r now PlayerColor.w hother]
    rw [sweep_fire r now PlayerColor.b ts hd hts hgt]
    exact ⟨rfl, rfl⟩

/-- C8: on disconnect the seat becomes vacant and a timestamp is recorded;
a clock tick while playing that observes `now − timestamp` beyond the grace
window (and no expired timestamp for the other color) ends the match with
status `disconnected`, winner the other color; reconnecting restores the
seat, clears the timestamp and touches nothing else. -/
theorem spec_c8 (room : Room Pos) (now : Nat) (socketId : String) :
    (∀ c, (removePlayer room now socketId).1 = some c →
      (removePlayer room now socketId).2 =
        { room with players := room.players.set c none
                    disconnectedPlayers :=
                      room.disconnectedPlayers.set c (some now) }) ∧
    (∀ c ts, room.gameState.status = GameStatus.playing →
      room.disconnectedPlayers.get c = some ts → ts ≠ 0 →
      (now : Int) - ts > RECONNECT_TIMEOUT_MS →
      (∀ t2, room.disconnectedPlayers.get (otherColor c) = some t2 →
        ¬ (t2 ≠ 0 ∧ (now : Int) - t2 > RECONNECT_TIMEOUT_MS)) →
      (timerTick room now).1.gameState.status = GameStatus.disconnected ∧
      (timerTick room now).1.gameState.winner = some (otherColor c)) ∧
    (∀ c ts, room.disconnectedPlayers.get c = some ts → ts ≠ 0 →
      reconnectPlayer room socketId c =
        (true,
         { room with players := room.players.set c (some socketId)
                     disconnectedPlayers :=
                       room.disconnectedPlayers.set c none })) := by
  refine ⟨?_, ?_, ?_⟩
  · intro c
    simp only [removePlayer]
    by_cases hw : room.players.w = some socketId
    · rw [if_pos hw]
      intro hc
      injection hc with hc2
      subst hc2
      rfl
    rw [if_neg hw]
    by_cases hb : room.players.b = some socketId
    · rw [if_pos hb]
      intro hc
      injection hc with hc2
      subst hc2
      rfl
    rw [if_neg hb]
    intro hc
    exact Option.noConfusion hc
  · intro c ts hstat hd hts hgt hother
    simp only [timerTick]
    rw [if_neg (by simp [hstat] :
      ¬ (room.gameState.status != GameStatus.playing) = true)]
    split
    · exact sweepPair _ now c ts hd hts hgt hother
    · exact sweepPair _ now c ts hd hts hgt hother
  · intro c ts hd hts
    simp only [reconnectPlayer, hd]
    rw [if_pos hts]

theorem spec_c8_witness :
    (removePlayer roomP 100 "sw").2 =
      { roomP with players := roomP.players.set PlayerColor.w none
                   disconnectedPlayers :=
                     roomP.disconnectedPlayers.set PlayerColor.w
                       (some 100) } ∧
    (timerTick roomD 40000).1.gameState.status = GameStatus.disconnected ∧
    (timerTick roomD 40000).1.gameState.winner =
      some (otherColor PlayerColor.w) ∧
    reconnectPlayer roomD "sw2" PlayerColor.w =
      (true,
       { roomD with players := roomD.players.set PlayerColor.w (some "sw2")
                    disconnectedPlayers :=
                      roomD.disconnectedPlayers.set PlayerColor.w none }) := by
  have ha := (spec_c8 roomP 100 "sw").1 PlayerColor.w (by decide)
  have hb := (spec_c8 roomD 40000 "sw").2.1 PlayerColor.w 100 rfl (by decide)
    (by decide) (by decide)
    (fun t2 h2 => Option.noConfusion h2)
  have hc := (spec_c8 roomD 40000 "sw2").2.2 PlayerColor.w 100 (by decide)
    (by decide)
  exact ⟨ha, hb.1, hb.2, hc⟩

theorem PIECE_COSTS_nonneg (t : PieceType) : 0 ≤ PIECE_COSTS t := by
  cases t <;> decide

/-- The commit block keeps both elixir balances within 0..MAX_ELIXIR: the
gain is guarded by `< MAX_ELIXIR`. -/
theorem commitMove_elixir_inv (E : ChessEngine Pos) (room : Room Pos)
    (pc : PlayerColor) (wch : Bool) (c2 : Pos) (now : Nat)
    (hinv : ∀ c, 0 ≤ room.gameState.elixir.get c ∧
      room.gameState.elixir.get c ≤ MAX_ELIXIR) :
    ∀ c, 0 ≤ (commitMove E room pc wch c2 now).1.gameState.elixir.get c ∧
      (commitMove E room pc wch c2 now).1.gameState.elixir.get c ≤
        MAX_ELIXIR := by
  intro c
  rw [commitMove_elixir]
  split
  case isTrue hcond =>
    by_cases hc : c = pc
    · subst hc
      rw [ColorMap.get_set_same]
      have h1 := (hinv c).1
      have h2 := hcond.2.2
      omega
    · rw [ColorMap.get_set_other _ _ _ _ (Ne.symm hc)]
      exact hinv c
  case isFalse _ => exact hinv c

theorem placePiece_none (E : ChessEngine Pos) (room : Room Pos) (now : Nat)
    (u : Nat → Rat) (socketId : String) (type : PieceType) (square : String)
    (hpc : getPlayerColor room socketId = none) :
    placePiece E room now u socketId type square =
      ⟨false, some "Not in this game", room, []⟩ := by
  simp only [placePiece, hpc]

theorem movePiece_none (E : ChessEngine Pos) (room : Room Pos) (now : Nat)
    (socketId : String) (fromSq toSq : String)
    (hpc : getPlayerColor room socketId = none) :
    movePiece E room now socketId fromSq toSq =
      ⟨false, some "Not in this game", room, []⟩ := by
  simp only [movePiece, hpc]

theorem placePiece_elixir_inv (E : ChessEngine Pos) (room : Room Pos)
    (now : Nat) (u : Nat → Rat) (socketId : String) (type : PieceType)
    (square : String)
    (hinv : ∀ c, 0 ≤ room.gameState.elixir.get c ∧
      room.gameState.elixir.get c ≤ MAX_ELIXIR) :
    ∀ c, 0 ≤ (placePiece E room now u socketId type
        square).room.gameState.elixir.get c ∧
      (placePiece E room now u socketId type
        square).room.gameState.elixir.get c ≤ MAX_ELIXIR := by
  intro c
  cases hpc : getPlayerColor room socketId with
  | none => rw [placePiece_none E room now u socketId type square hpc]; exact hinv c
  | some pc =>
    cases hs : (placePiece E room now u socketId type square).success with
    | false =>
      rcases placePiece_out E room now u socketId type square _ rfl with
        hs2 | ⟨hroom, _, _⟩
      · rw [hs] at hs2; exact Bool.noConfusion hs2
      · rw [hroom]; exact hinv c
    | true =>
      obtain ⟨hcost, hmap⟩ :=
        placePiece_success_elixir E room now u socketId type square pc _ hpc
          rfl hs
      rw [hmap]
      have hnn := PIECE_COSTS_nonneg type
      split
      case isTrue hcond =>
        by_cases hc : c = pc
        · subst hc
          rw [ColorMap.get_set_same]
          have h2 := hcond.2.2
          omega
        · rw [ColorMap.get_set_other _ _ _ _ (Ne.symm hc)]
          exact hinv c
      case isFalse _ =>
        by_cases hc : c = pc
        · subst hc
          rw [ColorMap.get_set_same]
          have h1 := (hinv c).2
          omega
        · rw [ColorMap.get_set_other _ _ _ _ (Ne.symm hc)]
          exact hinv c

theorem movePiece_elixir_inv (E : ChessEngine Pos) (room : Room Pos)
    (now : Nat) (socketId : String) (fromSq toSq : String)
    (hinv : ∀ c, 0 ≤ room.gameState.elixir.get c ∧
      room.gameState.elixir.get c ≤ MAX_ELIXIR) :
    ∀ c, 0 ≤ (movePiece E room now socketId fromSq
        toSq).room.gameState.elixir.get c ∧
      (movePiece E room now socketId fromSq
        toSq).room.gameState.elixir.get c ≤ MAX_ELIXIR := by
  intro c
  cases hpc : getPlayerColor room socketId with
  | none => rw [movePiece_none E room now socketId fromSq toSq hpc]; exact hinv c
  | some pc =>
    cases hs : (movePiece E room now socketId fromSq toSq).success with
    | false =>
      rcases movePiece_out E room now socketId fromSq toSq _ rfl with
        hs2 | ⟨hroom, _, _⟩
      · rw [hs] at hs2; exact Bool.noConfusion hs2
      · rw [hroom]; exact hinv c
    | true =>
      have hmap :=
        movePiece_success_elixir E room now socketId fromSq toSq pc _ hpc
          rfl hs
      rw [hmap]
      split
      case isTrue hcond =>
        by_cases hc : c = pc
        · subst hc
          rw [ColorMap.get_set_same]
          have h1 := (hinv c).1
          have h2 := hcond.2.2
          omega
        · rw [ColorMap.get_set_other _ _ _ _ (Ne.symm hc)]
          exact hinv c
      case isFalse _ => exact hinv c

theorem tryExec_elixir_inv (E : ChessEngine Pos) (room : Room Pos) (now : Nat)
    (hinv : ∀ c, 0 ≤ room.gameState.elixir.get c ∧
      room.gameState.elixir.get c ≤ MAX_ELIXIR) :
    ∀ c, 0 ≤ (tryExecutePremove E room now).room.gameState.elixir.get c ∧
      (tryExecutePremove E room now).room.gameState.elixir.get c ≤
        MAX_ELIXIR := by
  intro c
  simp only [tryExecutePremove]
  by_cases h1 : (room.gameState.status != GameStatus.playing) = true
  · rw [if_pos h1]; exact hinv c
  rw [if_neg h1]
  cases hq : room.premoves.get room.gameState.turn with
  | nil => exact hinv c
  | cons pm rest =>
    dsimp only
    cases hmv : E.move room.chess pm.fromSq pm.toSq with
    | none => exact hinv c
    | some c2 =>
      dsimp only
      exact commitMove_elixir_inv E
        { room with premoves := room.premoves.set room.gameState.turn rest }
        room.gameState.turn (E.inCheck room.chess) c2 now
        (fun d => hinv d) c

theorem sweep_elixir (room : Room Pos) (now : Nat) (color : PlayerColor) :
    (disconnectSweepStep room now color).1.gameState.elixir =
      room.gameState.elixir := by
  simp only [disconnectSweepStep, endGame]
  cases hx : room.disconnectedPlayers.get color with
  | none => rfl
  | some t =>
      dsimp only
      split <;> rfl

theorem timerTick_elixir (room : Room Pos) (now : Nat) :
    (timerTick room now).1.gameState.elixir = room.gameState.elixir := by
  simp only [timerTick]
  by_cases h1 : (room.gameState.status != GameStatus.playing) = true
  · rw [if_pos h1]
  rw [if_neg h1]
  rw [sweep_elixir, sweep_elixir]
  split <;> rfl

theorem resign_elixir (room : Room Pos) (socketId : String) :
    (resign room socketId).room.gameState.elixir =
      room.gameState.elixir := by
  simp only [resign, endGame]
  split
  case h_1 => rfl
  case h_2 pc heq => split <;> rfl

theorem offerDraw_elixir (room : Room Pos) (socketId : String) :
    (offerDraw room socketId).room.gameState.elixir =
      room.gameState.elixir := by
  simp only [offerDraw]
  repeat' split
  all_goals rfl

theorem respondToDraw_elixir (room : Room Pos) (socketId : String)
    (accept : Bool) :
    (respondToDraw room socketId accept).room.gameState.elixir =
      room.gameState.elixir := by
  simp only [respondToDraw, endGame]
  repeat' split
  all_goals rfl

theorem setPremoves_elixir (room : Room Pos) (socketId : String)
    (pms : List Premove) :
    (setPremoves room socketId pms).1.gameState.elixir =
      room.gameState.elixir := by
  simp only [setPremoves]
  repeat' split
  all_goals rfl

theorem clearPremoves_elixir (room : Room Pos) (socketId : String) :
    (clearPremoves room socketId).1.gameState.elixir =
      room.gameState.elixir := by
  simp only [clearPremoves]
  repeat' split
  all_goals rfl

theorem removePlayer_gameState (room : Room Pos) (now : Nat)
    (socketId : String) :
    (removePlayer room now socketId).2.gameState = room.gameState := by
  simp only [removePlayer]
  repeat' split
  all_goals rfl

theorem reconnectPlayer_gameState (room : Room Pos) (socketId : String)
    (color : PlayerColor) :
    (reconnectPlayer room socketId color).2.gameState = room.gameState := by
  simp only [reconnectPlayer]
  repeat' split
  all_goals rfl

theorem restartGame_elixir_inv (E : ChessEngine Pos) (room : Room Pos)
    (now : Nat) (uW uB : Nat → Rat) (socketId : String)
    (hinv : ∀ c, 0 ≤ room.gameState.elixir.get c ∧
      room.gameState.elixir.get c ≤ MAX_ELIXIR) :
    ∀ c, 0 ≤ (restartGame E room now uW uB
        socketId).room.gameState.elixir.get c ∧
      (restartGame E room now uW uB socketId).room.gameState.elixir.get c ≤
        MAX_ELIXIR := by
  intro c
  cases hpc : getPlayerColor room socketId with
  | none => simp only [restartGame, hpc]; exact hinv c
  | some pc =>
      simp only [restartGame, createInitialGameState, hpc]
      cases c <;> exact ⟨by decide, by decide⟩

/-- C6: both elixir balances stay integers in 0..MAX_ELIXIR across every
operation: the standalone ledger's deduct floors at 0 and its gain caps at
MAX_ELIXIR, and each room operation preserves the bounds (placement deducts
only when the balance covers the cost; gains are guarded by
`< MAX_ELIXIR`). -/
theorem spec_c6 (E : ChessEngine Pos) (room : Room Pos) (now : Nat)
    (u uW uB : Nat → Rat) (socketId : String) (type : PieceType)
    (square fromSq toSq : String) (pms : List Premove) (accept : Bool)
    (color : PlayerColor)
    (hinv : ∀ c, 0 ≤ room.gameState.elixir.get c ∧
      room.gameState.elixir.get c ≤ MAX_ELIXIR) :
    (∀ cur cost : Int, 0 ≤ deductElixir cur cost) ∧
    (∀ cur amt : Int, addElixir cur amt ≤ MAX_ELIXIR) ∧
    (∀ c, 0 ≤ (placePiece E room now u socketId type
        square).room.gameState.elixir.get c ∧
      (placePiece E room now u socketId type
        square).room.gameState.elixir.get c ≤ MAX_ELIXIR) ∧
    (∀ c, 0 ≤ (movePiece E room now socketId fromSq
        toSq).room.gameState.elixir.get c ∧
      (movePiece E room now socketId fromSq
        toSq).room.gameState.elixir.get c ≤ MAX_ELIXIR) ∧
    (∀ c, 0 ≤ (tryExecutePremove E room now).room.gameState.elixir.get c ∧
      (tryExecutePremove E room now).room.gameState.elixir.get c ≤
        MAX_ELIXIR) ∧
    (∀ c, 0 ≤ (restartGame E room now uW uB
        socketId).room.gameState.elixir.get c ∧
      (restartGame E room now uW uB socketId).room.gameState.elixir.get c ≤
        MAX_ELIXIR) ∧
    (timerTick room now).1.gameState.elixir = room.gameState.elixir ∧
    (resign room socketId).room.gameState.elixir = room.gameState.elixir ∧
    (offerDraw room socketId).room.gameState.elixir =
      room.gameState.elixir ∧
    (respondToDraw room socketId accept).room.gameState.elixir =
      room.gameState.elixir ∧
    (setPremoves room socketId pms).1.gameState.elixir =
      room.gameState.elixir ∧
    (clearPremoves room socketId).1.gameState.elixir =
      room.gameState.elixir ∧
    (removePlayer room now socketId).2.gameState = room.gameState ∧
    (reconnectPlayer room socketId color).2.gameState = room.gameState := by
  refine ⟨?_, ?_,
    placePiece_elixir_inv E room now u socketId type square hinv,
    movePiece_elixir_inv E room now socketId fromSq toSq hinv,
    tryExec_elixir_inv E room now hinv,
    restartGame_elixir_inv E room now uW uB socketId hinv,
    timerTick_elixir room now,
    resign_elixir room socketId,
    offerDraw_elixir room socketId,
    respondToDraw_elixir room socketId accept,
    setPremoves_elixir room socketId pms,
    clearPremoves_elixir room socketId,
    removePlayer_gameState room now socketId,
    reconnectPlayer_gameState room socketId color⟩
  · intro cur cost
    simp [deductElixir, le_max_left]
  · intro cur amt
    simp [addElixir, min_le_right]

theorem spec_c6_witness :
    0 ≤ deductElixir 3 9 ∧ addElixir 9 5 ≤ MAX_ELIXIR ∧
    (0 ≤ (placePiece calmEngine roomP 0 u0 "sw" PieceType.p
        "e2").room.gameState.elixir.get PlayerColor.w ∧
     (placePiece calmEngine roomP 0 u0 "sw" PieceType.p
        "e2").room.gameState.elixir.get PlayerColor.w ≤ MAX_ELIXIR) ∧
    (timerTick roomP 50).1.gameState.elixir = roomP.gameState.elixir := by
  have h := spec_c6 calmEngine roomP 0 u0 u0 u0 "sw" PieceType.p "e2" "e2"
    "e4" [] true PlayerColor.w
    (fun c => by cases c <;> exact ⟨by decide, by decide⟩)
  have h50 := spec_c6 calmEngine roomP 50 u0 u0 u0 "sw" PieceType.p "e2" "e2"
    "e4" [] true PlayerColor.w
    (fun c => by cases c <;> exact ⟨by decide, by decide⟩)
  exact ⟨h.1 3 9, h.2.1 9 5, h.2.2.1 PlayerColor.w, h50.2.2.2.2.2.2.1⟩

/-- `checkGameEnd` ignores the premove queues. -/
theorem checkGameEnd_set_premoves (E : ChessEngine Pos) (r : Room Pos)
    (pc : PlayerColor) (q : List Premove) :
    (checkGameEnd E { r with premoves := r.premoves.set pc q }).1 =
      { (checkGameEnd E r).1 with premoves := r.premoves.set pc q } := by
  simp only [checkGameEnd, endGame]
  repeat' split
  all_goals rfl

/-- The commit block ignores the premove queues. -/
theorem commitMove_set_premoves (E : ChessEngine Pos) (room : Room Pos)
    (pc2 : PlayerColor) (q : List Premove) (pc : PlayerColor) (wch : Bool)
    (c2 : Pos) (now : Nat) :
    (commitMove E { room with premoves := room.premoves.set pc2 q } pc wch c2
        now).1 =
      { (commitMove E room pc wch c2 now).1 with
        premoves := room.premoves.set pc2 q } := by
  simp only [commitMove, checkGameEnd, endGame]
  repeat' split
  all_goals rfl

/-- A legal `movePiece` by the on-move seated player is exactly the shared
commit block. -/
theorem movePiece_legal (E : ChessEngine Pos) (room : Room Pos) (now : Nat)
    (socketId : String) (pc : PlayerColor) (fromSq toSq : String) (c2 : Pos)
    (hpc : getPlayerColor room socketId = some pc)
    (hst : room.gameState.status = GameStatus.playing)
    (hturn : room.gameState.turn = pc)
    (hmv : E.move room.chess fromSq toSq = some c2) :
    movePiece E room now socketId fromSq toSq =
      ⟨true, none, (commitMove E room pc (E.inCheck room.chess) c2 now).1,
        (commitMove E room pc (E.inCheck room.chess) c2 now).2⟩ := by
  simp only [movePiece, hpc]
  rw [if_neg (by simp [hst] :
    ¬ (room.gameState.status != GameStatus.playing) = true)]
  rw [if_neg (by simp [hturn] :
    ¬ (room.gameState.turn != pc) = true)]
  rw [hmv]

/-- `tryExecutePremove` with a still-legal head executes it as an ordinary
move (the same commit block), popping the head from the queue. -/
theorem tryExec_legal (E : ChessEngine Pos) (room : Room Pos) (now : Nat)
    (pm : Premove) (rest : List Premove) (c2 : Pos)
    (hst : room.gameState.status = GameStatus.playing)
    (hq : room.premoves.get room.gameState.turn = pm :: rest)
    (hmv : E.move room.chess pm.fromSq pm.toSq = some c2) :
    tryExecutePremove E room now =
      ⟨true, none,
        (commitMove E
          { room with premoves :=
              room.premoves.set room.gameState.turn rest }
          room.gameState.turn (E.inCheck room.chess) c2 now).1,
        (commitMove E
          { room with premoves :=
              room.premoves.set room.gameState.turn rest }
          room.gameState.turn (E.inCheck room.chess) c2 now).2⟩ := by
  simp only [tryExecutePremove]
  rw [if_neg (by simp [hst] :
    ¬ (room.gameState.status != GameStatus.playing) = true)]
  rw [hq]
  dsimp only
  rw [hmv]

/-- `tryExecutePremove` with an illegal head applies nothing, clears the
whole queue of the on-move color and notifies that player with reason
"Invalid premove". -/
theorem tryExec_illegal (E : ChessEngine Pos) (room : Room Pos) (now : Nat)
    (pm : Premove) (rest : List Premove) (sock : String)
    (hst : room.gameState.status = GameStatus.playing)
    (hq : room.premoves.get room.gameState.turn = pm :: rest)
    (hmv : E.move room.chess pm.fromSq pm.toSq = none)
    (hsock : room.players.get room.gameState.turn = some sock) :
    tryExecutePremove E room now =
      ⟨false, none,
        { room with premoves := room.premoves.set room.gameState.turn [] },
        [SEvent.premovesCleared sock "Invalid premove"]⟩ := by
  simp only [tryExecutePremove, clearPremovesForPlayer]
  rw [if_neg (by simp [hst] :
    ¬ (room.gameState.status != GameStatus.playing) = true)]
  rw [hq]
  dsimp only
  rw [hmv, hsock]

/-- C4: for a premove queue `q` of the color `c` coming on move, where the
first `gs.length` entries are legal when reached (each round being one
debounced `tryExecutePremove` followed by an arbitrary interlude that hands
the turn back to `c` without touching `c`'s queue or seat) and entry
`gs.length` (0-based; the K-th, K = gs.length + 1) is the first illegal one:
the rounds pop exactly the first K−1 entries, each executed as an ordinary
`movePiece` (same room, up to the popped queue); the K-th attempt applies
nothing, empties `c`'s entire remaining queue, and notifies that player with
reason "Invalid premove". -/
theorem spec_c4 (E : ChessEngine Pos) (now : Nat) (room0 : Room Pos)
    (c : PlayerColor) (sock : String) (q : List Premove)
    (gs : List (Room Pos → Room Pos))
    (hlen : gs.length < q.length)
    (h0q : room0.premoves.get c = q)
    (h0st : room0.gameState.status = GameStatus.playing)
    (h0turn : room0.gameState.turn = c)
    (h0sock : room0.players.get c = some sock)
    (h0pc : getPlayerColor room0 sock = some c)
    (hpres : ∀ i, i < gs.length →
      (premoveStage E now gs room0 (i + 1)).premoves.get c =
        (tryExecutePremove E (premoveStage E now gs room0 i)
          now).room.premoves.get c ∧
      (premoveStage E now gs room0 (i + 1)).gameState.status =
        GameStatus.playing ∧
      (premoveStage E now gs room0 (i + 1)).gameState.turn = c ∧
      (premoveStage E now gs room0 (i + 1)).players.get c = some sock ∧
      getPlayerColor (premoveStage E now gs room0 (i + 1)) sock = some c)
    (hlegal : ∀ i (hi : i < gs.length),
      (E.move (premoveStage E now gs room0 i).chess
        (getElem q i (hi.trans hlen)).fromSq
        (getElem q i (hi.trans hlen)).toSq).isSome = true)
    (hfail : E.move (premoveStage E now gs room0 gs.length).chess
      (getElem q gs.length hlen).fromSq
      (getElem q gs.length hlen).toSq = none) :
    (∀ i, i ≤ gs.length →
      (premoveStage E now gs room0 i).premoves.get c = q.drop i) ∧
    (∀ i (hi : i < gs.length),
      (tryExecutePremove E (premoveStage E now gs room0 i) now).success =
        true ∧
      (tryExecutePremove E (premoveStage E now gs room0 i) now).room =
        { (movePiece E (premoveStage E now gs room0 i) now sock
            (getElem q i (hi.trans hlen)).fromSq
            (getElem q i (hi.trans hlen)).toSq).room with
          premoves := (premoveStage E now gs room0 i).premoves.set c
            (q.drop (i + 1)) }) ∧
    ((tryExecutePremove E (premoveStage E now gs room0 gs.length)
        now).success = false ∧
     (tryExecutePremove E (premoveStage E now gs room0 gs.length) now).room =
       { premoveStage E now gs room0 gs.length with
         premoves := (premoveStage E now gs room0
           gs.length).premoves.set c [] } ∧
     (tryExecutePremove E (premoveStage E now gs room0 gs.length)
        now).events = [SEvent.premovesCleared sock "Invalid premove"]) := by
  have hA : ∀ i, i ≤ gs.length →
      (premoveStage E now gs room0 i).premoves.get c = q.drop i ∧
      (premoveStage E now gs room0 i).gameState.status =
        GameStatus.playing ∧
      (premoveStage E now gs room0 i).gameState.turn = c ∧
      (premoveStage E now gs room0 i).players.get c = some sock ∧
      getPlayerColor (premoveStage E now gs room0 i) sock = some c := by
    intro i
    induction i with
    | zero =>
      intro _
      exact ⟨by simpa using h0q, h0st, h0turn, h0sock, h0pc⟩
    | succ i ih =>
      intro hle
      have hi : i < gs.length := Nat.lt_of_succ_le hle
      obtain ⟨ihq, ihst, ihturn, ihsock, ihpc⟩ := ih (Nat.le_of_lt hi)
      obtain ⟨hp1, hp2, hp3, hp4, hp5⟩ := hpres i hi
      refine ⟨?_, hp2, hp3, hp4, hp5⟩
      obtain ⟨c2, hmv⟩ := Option.isSome_iff_exists.mp (hlegal i hi)
      have hqi : (premoveStage E now gs room0 i).premoves.get
          (premoveStage E now gs room0 i).gameState.turn =
          getElem q i (hi.trans hlen) :: q.drop (i + 1) := by
        rw [ihturn, ihq, List.getElem_cons_drop]
      have hexec := tryExec_legal E (premoveStage E now gs room0 i) now
        (getElem q i (hi.trans hlen)) (q.drop (i + 1)) c2 ihst hqi hmv
      rw [hp1, hexec]
      dsimp only
      rw [commitMove_premoves]
      dsimp only
      rw [ihturn, ColorMap.get_set_same]
  refine ⟨fun i hle => (hA i hle).1, ?_, ?_⟩
  · intro i hi
    obtain ⟨ihq, ihst, ihturn, ihsock, ihpc⟩ := hA i (Nat.le_of_lt hi)
    obtain ⟨c2, hmv⟩ := Option.isSome_iff_exists.mp (hlegal i hi)
    have hqi : (premoveStage E now gs room0 i).premoves.get
        (premoveStage E now gs room0 i).gameState.turn =
        getElem q i (hi.trans hlen) :: q.drop (i + 1) := by
      rw [ihturn, ihq, List.getElem_cons_drop]
    have hexec := tryExec_legal E (premoveStage E now gs room0 i) now
      (getElem q i (hi.trans hlen)) (q.drop (i + 1)) c2 ihst hqi hmv
    rw [ihturn] at hexec
    have hmvP := movePiece_legal E (premoveStage E now gs room0 i) now sock c
      (getElem q i (hi.trans hlen)).fromSq
      (getElem q i (hi.trans hlen)).toSq c2 ihpc ihst ihturn hmv
    rw [hexec, hmvP]
    dsimp only
    constructor
    · rfl
    · rw [commitMove_set_premoves]
  · obtain ⟨ihq, ihst, ihturn, ihsock, ihpc⟩ := hA gs.length (Nat.le_refl _)
    have hqi : (premoveStage E now gs room0 gs.length).premoves.get
        (premoveStage E now gs room0 gs.length).gameState.turn =
        getElem q gs.length hlen :: q.drop (gs.length + 1) := by
      rw [ihturn, ihq, List.getElem_cons_drop]
    have hsock2 : (premoveStage E now gs room0 gs.length).players.get
        (premoveStage E now gs room0 gs.length).gameState.turn =
        some sock := by
      rw [ihturn]; exact ihsock
    have hexec := tryExec_illegal E (premoveStage E now gs room0 gs.length)
      now (getElem q gs.length hlen) (q.drop (gs.length + 1)) sock ihst hqi
      hfail hsock2
    rw [ihturn] at hexec
    rw [hexec]
    exact ⟨rfl, rfl, rfl⟩

theorem spec_c4_witness :
    (tryExecutePremove scriptEngine
      (premoveStage scriptEngine 0 [id] roomQ 1) 0).success = false ∧
    (tryExecutePremove scriptEngine
      (premoveStage scriptEngine 0 [id] roomQ 1) 0).room =
      { premoveStage scriptEngine 0 [id] roomQ 1 with
        premoves := (premoveStage scriptEngine 0 [id]
          roomQ 1).premoves.set PlayerColor.w [] } ∧
    (tryExecutePremove scriptEngine
      (premoveStage scriptEngine 0 [id] roomQ 1) 0).events =
      [SEvent.premovesCleared "sw" "Invalid premove"] := by
  have h := spec_c4 scriptEngine 0 roomQ PlayerColor.w "sw"
    [Premove.mk "e2" "e4", Premove.mk "a7" "a5"] [id]
    (by decide) (by decide) (by decide) (by decide) (by decide) (by decide)
    (fun i hi => by
      have h0 : i = 0 := Nat.lt_one_iff.mp hi
      subst h0
      exact ⟨rfl, by decide, by decide, by decide, by decide⟩)
    (fun i hi => by
      have h0 : i = 0 := Nat.lt_one_iff.mp hi
      subst h0
      show (scriptEngine.move
        (premoveStage scriptEngine 0 [id] roomQ 0).chess "e2" "e4").isSome =
        true
      decide)
    (by decide)
  exact h.2.2
